import Mathlib

/-!
Verification of the core geometric-intersection and shading engine of a
Whitted-style ray tracer written in Rust.

The development is a shallow embedding of the source:
* `Vec3`, `Color`, `Material`, `Ray`, `BoundingBox` mirror `src/vec.rs`,
  `src/scene/material.rs`, `src/ray.rs` and `src/scene/shapes/mod.rs`,
  generically over a linear ordered field (`ℚ` is used where the code is
  exact-arithmetic-executable, `ℝ` where the code calls `sqrt`/`powf`).
* The `Shape` trait of `src/scene/shapes/mod.rs` is embedded as a record of
  its capabilities; the mesh triangle (`src/scene/shapes/poly_mesh.rs`,
  whose `Shape` impl supplies both `get_bbox` and the Möller–Trumbore
  `intersects` used by the BVH) is embedded as `MeshPoly`.
* `Scene::intersects` (linear scan, `src/scene/mod.rs`), `Tree::build` /
  `Tree::intersects_node` (`src/scene/bvh.rs`) and `BvhScene::intersects`
  are embedded over ℚ; Rust's stable `sort_by` is modelled by the stable
  `List.insertionSort`, and the `panic!` in `TreeNode::get_shape` by an
  outer `Option`.
* The recursive shading engine (`src/lib.rs`), the intersection record
  (`src/scene/intersection.rs`) and the sphere (`src/scene/shapes/sphere.rs`)
  are embedded over ℝ; the random sampler used for area lights is passed in
  explicitly as a stream of sample triples.
-/

namespace RayTracer

/-- 3-component vector, `src/vec.rs` (`Vec3 {x,y,z}`). -/
structure Vec3 (α : Type) where
  x : α
  y : α
  z : α
deriving DecidableEq

variable {α : Type} [LinearOrderedField α]

/-- `Vec3::init`. -/
def Vec3.init (x y z : α) : Vec3 α := ⟨x, y, z⟩

/-- `Vec3::new` — the zero vector. -/
def Vec3.new : Vec3 α := Vec3.init 0 0 0

/-- `impl Add for Vec3`. -/
instance : Add (Vec3 α) :=
  ⟨fun a b => Vec3.init (a.x + b.x) (a.y + b.y) (a.z + b.z)⟩

/-- `impl Sub for Vec3`. -/
instance : Sub (Vec3 α) :=
  ⟨fun a b => Vec3.init (a.x - b.x) (a.y - b.y) (a.z - b.z)⟩

/-- `impl Mul for Vec3` — componentwise product. -/
instance : Mul (Vec3 α) :=
  ⟨fun a b => Vec3.init (a.x * b.x) (a.y * b.y) (a.z * b.z)⟩

/-- `Vec3::mult` — scaling by a scalar. -/
def Vec3.mult (v : Vec3 α) (num : α) : Vec3 α :=
  Vec3.init (v.x * num) (v.y * num) (v.z * num)

/-- `Vec3::dot`. -/
def Vec3.dot (v other : Vec3 α) : α :=
  v.x * other.x + v.y * other.y + v.z * other.z

/-- `Vec3::cross`. -/
def Vec3.cross (v vec : Vec3 α) : Vec3 α :=
  Vec3.init (v.y * vec.z - v.z * vec.y) (v.z * vec.x - v.x * vec.z)
    (v.x * vec.y - v.y * vec.x)

/-- `Vec3::invert`. -/
def Vec3.invert (v : Vec3 α) : Vec3 α := v.mult (-1)

/-- `impl Index<u32> for Vec3`; the code only indexes with `0`, `1`, `2`
(the BVH uses `depth % 3`), so the out-of-bounds `panic!` branch is
unreachable and indices other than `0`/`1` map to `z`. -/
def Vec3.idx (v : Vec3 α) : Nat → α
  | 0 => v.x
  | 1 => v.y
  | _ => v.z

/-- RGB color, `src/scene/material.rs` (`Color {r,g,b}`). -/
structure Color (α : Type) where
  r : α
  g : α
  b : α
deriving DecidableEq

/-- The channel setters `Color::r`/`g`/`b`: clamp the new value into
`[0,1]` (first `if v < 0 { v = 0 }`, then `if v > 1 { v = 1 }`). -/
def Color.channelSet (v : α) : α :=
  let v := if v < 0 then 0 else v
  if v > 1 then 1 else v

/-- `Color::new`. -/
def Color.new : Color α := ⟨0, 0, 0⟩

/-- `Color::init` — goes through the clamping setters. -/
def Color.init (r g b : α) : Color α :=
  ⟨Color.channelSet r, Color.channelSet g, Color.channelSet b⟩

/-- `Color::mult` — scale by a scalar (through `Color::init`). -/
def Color.mult (c : Color α) (num : α) : Color α :=
  Color.init (c.r * num) (c.g * num) (c.b * num)

/-- `impl Mul for Color` — componentwise product through `Color::init`. -/
instance : Mul (Color α) :=
  ⟨fun a b => Color.init (a.r * b.r) (a.g * b.g) (a.b * b.b)⟩

/-- `impl Add for Color` — componentwise sum through `Color::init`. -/
instance : Add (Color α) :=
  ⟨fun a b => Color.init (a.r + b.r) (a.g + b.g) (a.b + b.b)⟩

/-- `Material`, `src/scene/material.rs`. -/
structure Material (α : Type) where
  diffuse : Color α
  ambient : Color α
  specular : Color α
  emissive : Color α
  shininess : α
  transparency : α
deriving DecidableEq

/-- `Material::new`. -/
def Material.new : Material α :=
  ⟨Color.new, Color.new, Color.new, Color.new, 0, 0⟩

/-- `Ray`, `src/ray.rs`: origin, direction, and the medium flag
`vacuum : Cell<bool>` (modelled as a plain field; the `Cell` mutation in
`switch_medium` becomes a functional update). -/
structure Ray (α : Type) where
  ori : Vec3 α
  dir : Vec3 α
  vacuum : Bool
deriving DecidableEq

/-- `Ray::new` — the medium flag starts as `true` (vacuum). -/
def Ray.new : Ray α := ⟨Vec3.new, Vec3.new, true⟩

/-- `Ray::init` — sets origin and direction on a `Ray::new`. -/
def Ray.init (ori dir : Vec3 α) : Ray α := ⟨ori, dir, true⟩

/-- `Ray::switch_medium` — toggles the medium flag. -/
def Ray.switch_medium (r : Ray α) : Ray α := { r with vacuum := !r.vacuum }

/-- `Ray::in_vacuum`. -/
def Ray.in_vacuum (r : Ray α) : Bool := r.vacuum

/-- `BoundingBox`, `src/scene/shapes/mod.rs`. -/
structure BoundingBox (α : Type) where
  min : Vec3 α
  max : Vec3 α
deriving DecidableEq

/-- `BoundingBox::new`. -/
def BoundingBox.new : BoundingBox α := ⟨Vec3.new, Vec3.new⟩

/-- `BoundingBox::init`. -/
def BoundingBox.init (min max : Vec3 α) : BoundingBox α := ⟨min, max⟩

/-- `BoundingBox::centroid`. -/
def BoundingBox.centroid (b : BoundingBox α) : Vec3 α :=
  b.min.mult (1/2) + b.max.mult (1/2)

/-- `impl Add for BoundingBox` — componentwise union. -/
instance : Add (BoundingBox α) :=
  ⟨fun a other =>
    BoundingBox.init
      (Vec3.init (Min.min (a.min.idx 0) (other.min.idx 0))
        (Min.min (a.min.idx 1) (other.min.idx 1))
        (Min.min (a.min.idx 2) (other.min.idx 2)))
      (Vec3.init (Max.max (a.max.idx 0) (other.max.idx 0))
        (Max.max (a.max.idx 1) (other.max.idx 1))
        (Max.max (a.max.idx 2) (other.max.idx 2)))⟩

/-- `BoundingBox::intersects` — the slab test, `src/scene/shapes/mod.rs`
lines 45-84.  Divisions mirror the source; the theorems about it assume
all direction components are nonzero, where field division agrees with
the IEEE evaluation the source performs. -/
def BoundingBox.intersects (b : BoundingBox α) (ray : Ray α) : Bool :=
  let ori := ray.ori
  let dir := ray.dir
  let tmin := (b.min.idx 0 - ori.idx 0) / dir.idx 0
  let tmax := (b.max.idx 0 - ori.idx 0) / dir.idx 0
  let px := if tmin > tmax then (tmax, tmin) else (tmin, tmax)
  let tmin := px.1
  let tmax := px.2
  let tymin := (b.min.idx 1 - ori.idx 1) / dir.idx 1
  let tymax := (b.max.idx 1 - ori.idx 1) / dir.idx 1
  let py := if tymin > tymax then (tymax, tymin) else (tymin, tymax)
  let tymin := py.1
  let tymax := py.2
  if tmin > tymax ∨ tymin > tmax then false
  else
    let tmin := if tymin > tmin then tymin else tmin
    let tmax := if tymax < tmax then tymax else tmax
    let tzmin := (b.min.idx 2 - ori.idx 2) / dir.idx 2
    let tzmax := (b.max.idx 2 - ori.idx 2) / dir.idx 2
    let pz := if tzmin > tzmax then (tzmax, tzmin) else (tzmin, tzmax)
    let tzmin := pz.1
    let tzmax := pz.2
    if tmin > tzmax ∨ tzmin > tmax then false else true

/-- The `Shape` trait of `src/scene/shapes/mod.rs`, embedded as a record of
its capability set `{get_bbox, intersects, surface_normal, get_material,
diffuse_color}`.  `ShapeIntersection::Hit(t) / Missed` is `some t / none`. -/
structure Shape (α : Type) where
  get_bbox : BoundingBox α
  intersects : Ray α → Option α
  surface_normal : Vec3 α → Vec3 α → Vec3 α
  get_material : Material α
  diffuse_color : Vec3 α → Color α

/-- The mesh triangle of `src/scene/shapes/poly_mesh.rs` (the variant whose
`Shape` impl supplies both `get_bbox` and `intersects`): three vertex
positions. -/
structure MeshPoly (α : Type) where
  x : Vec3 α
  y : Vec3 α
  z : Vec3 α
deriving DecidableEq

/-- `MeshPoly::get_bbox` (`src/scene/shapes/poly_mesh.rs`): componentwise
min/max over the three vertex positions. -/
def MeshPoly.get_bbox (p : MeshPoly α) : BoundingBox α :=
  BoundingBox.init
    (Vec3.init (Min.min (p.x.idx 0) (Min.min (p.y.idx 0) (p.z.idx 0)))
      (Min.min (p.x.idx 1) (Min.min (p.y.idx 1) (p.z.idx 1)))
      (Min.min (p.x.idx 2) (Min.min (p.y.idx 2) (p.z.idx 2))))
    (Vec3.init (Max.max (p.x.idx 0) (Max.max (p.y.idx 0) (p.z.idx 0)))
      (Max.max (p.x.idx 1) (Max.max (p.y.idx 1) (p.z.idx 1)))
      (Max.max (p.x.idx 2) (Max.max (p.y.idx 2) (p.z.idx 2))))

/-- `MeshPoly::intersects` — Möller–Trumbore, `src/scene/shapes/poly_mesh.rs`
(identical to `src/scene/shapes/poly.rs` lines 123-164). -/
def MeshPoly.intersects (poly : MeshPoly α) (ray : Ray α) : Option α :=
  let p := ray.ori
  let d := ray.dir
  let v0 := poly.x
  let v1 := poly.y
  let v2 := poly.z
  let e1 := v1 - v0
  let e2 := v2 - v0
  let h := d.cross e2
  let a0 := e1.dot h
  if a0 > -(1/10000000 : α) ∧ a0 < (1/10000000 : α) then none
  else
    let f := 1 / a0
    let s := p - v0
    let u := f * s.dot h
    if u < 0 ∨ u > 1 then none
    else
      let q := s.cross e1
      let v := f * d.dot q
      if v < 0 ∨ u + v > 1 then none
      else
        let t := f * e2.dot q
        if t > (1/10000000 : α) then some t else none

/-- A `MeshPoly` packaged through the `Primitive::MeshPoly` dispatch of
`src/scene/shapes/mod.rs`: the `Shape` capabilities of the triangle.
(`surface_normal`/`diffuse_color`/`get_material` are irrelevant to the
intersection claims; the static normal and the first material are used.) -/
def MeshPoly.toShape (p : MeshPoly α) (mat : Material α) : Shape α :=
  { get_bbox := p.get_bbox
    intersects := p.intersects
    surface_normal := fun _ _ => (p.y - p.x).cross (p.z - p.x)
    get_material := mat
    diffuse_color := fun _ => mat.diffuse }

/-- `Intersection::point` (`src/scene/intersection.rs`):
`ray.ori + ray.dir.mult(t)`. -/
def rayPoint (ray : Ray α) (t : α) : Vec3 α :=
  ray.ori + ray.dir.mult t

/-- `SceneIntersection` (`src/scene/mod.rs`): `Intersected` carries the
intersection record, which is determined by the hit distance, the query
ray and the hit primitive; the ray is the query ray, so the record is
modelled by the pair (distance, shape).  `none` is `Missed`. -/
def SceneIntersection (α : Type) := Option (α × Shape α)

/-- The loop body state of `Scene::intersects` (`src/scene/mod.rs` lines
183-203): iterate primitives, the first hit establishes the baseline and a
later hit replaces it only if strictly nearer. -/
def Scene.intersectsAux (ray : Ray α) :
    List (Shape α) → SceneIntersection α → SceneIntersection α
  | [], acc => acc
  | prim :: rest, acc =>
    match prim.intersects ray, acc with
    | some new_point, none =>
      Scene.intersectsAux ray rest (some (new_point, prim))
    | some new_point, some (point, cur) =>
      if new_point < point then
        Scene.intersectsAux ray rest (some (new_point, prim))
      else
        Scene.intersectsAux ray rest (some (point, cur))
    | none, acc' => Scene.intersectsAux ray rest acc'

/-- `Scene::intersects` — linear scan over the primitive list. -/
def Scene.intersects (primitives : List (Shape α)) (ray : Ray α) :
    SceneIntersection α :=
  Scene.intersectsAux ray primitives none

/-- BVH node, `src/scene/bvh.rs`: `Node = Member(Box<TreeNode>) |
Leaf(Box<TreeNode>) | Empty` with `TreeNode {left, right, shape, bbox}`;
the boxed `TreeNode` is flattened into the constructors. -/
inductive Node (α : Type) where
  | Member (left : Node α) (right : Node α) (shape : Option (Shape α))
      (bbox : BoundingBox α)
  | Leaf (left : Node α) (right : Node α) (shape : Option (Shape α))
      (bbox : BoundingBox α)
  | Empty

/-- `TreeNode::get_bbox` — `Empty` yields `BoundingBox::new()`. -/
def Node.get_bbox : Node α → BoundingBox α
  | .Member _ _ _ bbox => bbox
  | .Leaf _ _ _ bbox => bbox
  | .Empty => BoundingBox.new

/-- `TreeNode::init` wrapped in `Node::Member` (as done by `Tree::build`):
bbox is the union of the children's bboxes; no shape. -/
def TreeNode.init (left right : Node α) : Node α :=
  .Member left right none (left.get_bbox + right.get_bbox)

/-- `NodeIntersection` (`src/scene/bvh.rs`): `Hit` carries the leaf
`TreeNode` and the distance; the only part of the node consumed afterwards
(`TreeNode::get_shape`) is its `shape` field, which is what is recorded. -/
inductive NodeIntersection (α : Type) where
  | Hit (shape : Option (Shape α)) (point : α)
  | Missed

/-- `Tree::build` (`src/scene/bvh.rs` lines 88-113): 0 shapes → `Empty`;
1 shape → `Leaf` (via `TreeNode::add`: bbox = shape's bbox); otherwise
sort by bbox-centroid on axis `depth % 3` (Rust's stable `sort_by` with a
`Less`/`Greater` comparator, modelled by the stable `insertionSort` on the
same key), split the sorted list at `len / 2`, and recurse. -/
def Tree.build (shapes : List (Shape α)) (depth : Nat) : Node α :=
  match shapes with
  | [] => .Empty
  | [s] => .Leaf .Empty .Empty (some s) s.get_bbox
  | s0 :: s1 :: rest =>
    let axis := depth % 3
    let sorted := (s0 :: s1 :: rest).insertionSort
      (fun a b => a.get_bbox.centroid.idx axis < b.get_bbox.centroid.idx axis)
    let half := (s0 :: s1 :: rest).length / 2
    TreeNode.init (Tree.build (sorted.take half) (depth + 1))
      (Tree.build (sorted.drop half) (depth + 1))
termination_by shapes.length
decreasing_by
  · simp only [List.length_take, List.length_insertionSort, List.length_cons]
    omega
  · simp only [List.length_drop, List.length_insertionSort, List.length_cons]
    omega

/-- `Tree::init` — build from depth 0. -/
def Tree.init (shapes : List (Shape α)) : Node α :=
  Tree.build shapes 0

/-- `Tree::intersects_node` (`src/scene/bvh.rs` lines 119-143). -/
def Tree.intersects_node : Node α → Ray α → NodeIntersection α
  | .Empty, _ => .Missed
  | .Leaf _ _ shape _, ray =>
    match shape with
    | some s =>
      match s.intersects ray with
      | some p => .Hit (some s) p
      | none => .Missed
    | none => .Missed
  | .Member left right _ bbox, ray =>
    if bbox.intersects ray then
      match Tree.intersects_node left ray, Tree.intersects_node right ray with
      | .Hit n0 p0, .Hit n1 p1 =>
        if p0 < p1 then .Hit n0 p0 else .Hit n1 p1
      | .Hit n p, _ => .Hit n p
      | _, .Hit n p => .Hit n p
      | _, _ => .Missed
    else .Missed

/-- `Tree::intersects`. -/
def Tree.intersects (root : Node α) (ray : Ray α) : NodeIntersection α :=
  Tree.intersects_node root ray

/-- `BvhScene::intersects` (`src/scene/mod.rs` lines 239-246); the outer
`Option` models the `panic!` in `TreeNode::get_shape` (a `Hit` node with
no shape), `none` meaning the panic fired. -/
def BvhScene.intersects (root : Node α) (ray : Ray α) :
    Option (SceneIntersection α) :=
  match Tree.intersects root ray with
  | .Hit oshape point =>
    match oshape with
    | some s => some (some (point, s))
    | none => none
  | .Missed => some none

/-! ### Specification glue for the scene/BVH agreement claim -/

/-- The point `rayPoint ray t` lies inside box `b` (componentwise). -/
def containsPoint (b : BoundingBox α) (p : Vec3 α) : Prop :=
  b.min.x ≤ p.x ∧ p.x ≤ b.max.x ∧ b.min.y ≤ p.y ∧ p.y ≤ b.max.y ∧
    b.min.z ≤ p.z ∧ p.z ≤ b.max.z

instance (b : BoundingBox α) (p : Vec3 α) : Decidable (containsPoint b p) := by
  unfold containsPoint
  infer_instance

/-- Box containment: `inner` lies inside `outer`. -/
def boxIn (inner outer : BoundingBox α) : Prop :=
  outer.min.x ≤ inner.min.x ∧ inner.max.x ≤ outer.max.x ∧
    outer.min.y ≤ inner.min.y ∧ inner.max.y ≤ outer.max.y ∧
    outer.min.z ≤ inner.min.z ∧ inner.max.z ≤ outer.max.z

/-- A shape's `intersects` only reports non-negative hit distances whose hit
points lie inside the shape's own bounding box (true of every concrete
primitive: sphere hit points lie on the sphere, triangle hit points inside
the triangle). -/
def GoodShape (ray : Ray α) (s : Shape α) : Prop :=
  ∀ t, s.intersects ray = some t →
    0 ≤ t ∧ containsPoint s.get_bbox (rayPoint ray t)

theorem rayPoint_x (ray : Ray α) (t : α) :
    (rayPoint ray t).x = ray.ori.x + ray.dir.x * t := rfl

theorem rayPoint_y (ray : Ray α) (t : α) :
    (rayPoint ray t).y = ray.ori.y + ray.dir.y * t := rfl

theorem rayPoint_z (ray : Ray α) (t : α) :
    (rayPoint ray t).z = ray.ori.z + ray.dir.z * t := rfl

theorem boxIn_refl (b : BoundingBox α) : boxIn b b := by
  refine ⟨le_refl _, le_refl _, le_refl _, le_refl _, le_refl _, le_refl _⟩

theorem boxIn_trans {a b c : BoundingBox α} (h1 : boxIn a b) (h2 : boxIn b c) :
    boxIn a c := by
  obtain ⟨x1, x2, y1, y2, z1, z2⟩ := h1
  obtain ⟨u1, u2, v1, v2, w1, w2⟩ := h2
  exact ⟨le_trans u1 x1, le_trans x2 u2, le_trans v1 y1, le_trans y2 v2,
    le_trans w1 z1, le_trans z2 w2⟩

theorem boxIn_add_left (a b : BoundingBox α) : boxIn a (a + b) := by
  refine ⟨?_, ?_, ?_, ?_, ?_, ?_⟩
  · exact min_le_left _ _
  · exact le_max_left _ _
  · exact min_le_left _ _
  · exact le_max_left _ _
  · exact min_le_left _ _
  · exact le_max_left _ _

theorem boxIn_add_right (a b : BoundingBox α) : boxIn b (a + b) := by
  refine ⟨?_, ?_, ?_, ?_, ?_, ?_⟩
  · exact min_le_right _ _
  · exact le_max_right _ _
  · exact min_le_right _ _
  · exact le_max_right _ _
  · exact min_le_right _ _
  · exact le_max_right _ _

theorem containsPoint_mono {a b : BoundingBox α} {p : Vec3 α}
    (hab : boxIn a b) (hp : containsPoint a p) : containsPoint b p := by
  obtain ⟨x1, x2, y1, y2, z1, z2⟩ := hab
  obtain ⟨u1, u2, v1, v2, w1, w2⟩ := hp
  exact ⟨le_trans x1 u1, le_trans u2 x2, le_trans y1 v1, le_trans v2 y2,
    le_trans z1 w1, le_trans w2 z2⟩

/-- One axis of the slab test: if the point at parameter `t` lies between
`lo` and `hi` on an axis with nonzero direction component `d`, then `t`
lies between the two slab quotients. -/
theorem slab_bound {d o lo hi t : α} (hd : d ≠ 0)
    (h1 : lo ≤ o + d * t) (h2 : o + d * t ≤ hi) :
    Min.min ((lo - o) / d) ((hi - o) / d) ≤ t ∧
      t ≤ Max.max ((lo - o) / d) ((hi - o) / d) := by
  rcases lt_or_gt_of_ne hd with hneg | hpos
  · constructor
    · refine le_trans (min_le_right _ _) ?_
      rw [div_le_iff_of_neg hneg]
      linarith [mul_comm t d]
    · refine le_trans ?_ (le_max_left _ _)
      rw [le_div_iff_of_neg hneg]
      linarith [mul_comm t d]
  · constructor
    · refine le_trans (min_le_left _ _) ?_
      rw [div_le_iff₀ hpos]
      linarith [mul_comm t d]
    · refine le_trans ?_ (le_max_right _ _)
      rw [le_div_iff₀ hpos]
      linarith [mul_comm t d]

/-- The conditional swap in the slab test computes min and max. -/
theorem minmax_pair (u v : α) :
    (if u > v then (v, u) else (u, v)) = (Min.min u v, Max.max u v) := by
  rcases le_or_lt u v with h | h
  · rw [if_neg (not_lt.mpr h), min_eq_left h, max_eq_right h]
  · rw [if_pos h, min_eq_right h.le, max_eq_left h.le]

/-- Completeness of `BoundingBox::intersects`: for a ray whose direction
has no zero component, the slab test accepts every box containing a point
of the ray's line. -/
theorem intersects_of_containsPoint {b : BoundingBox α} {ray : Ray α}
    {t : α} (hx : ray.dir.x ≠ 0) (hy : ray.dir.y ≠ 0) (hz : ray.dir.z ≠ 0)
    (hc : containsPoint b (rayPoint ray t)) : b.intersects ray = true := by
  obtain ⟨h1, h2, h3, h4, h5, h6⟩ := hc
  rw [rayPoint_x] at h1 h2
  rw [rayPoint_y] at h3 h4
  rw [rayPoint_z] at h5 h6
  obtain ⟨hbx1, hbx2⟩ := slab_bound hx h1 h2
  obtain ⟨hby1, hby2⟩ := slab_bound hy h3 h4
  obtain ⟨hbz1, hbz2⟩ := slab_bound hz h5 h6
  simp only [BoundingBox.intersects, Vec3.idx, minmax_pair]
  split_ifs <;>
    first
      | rfl
      | (exfalso
         casesm* _ ∨ _ <;> linarith)

/-- The shapes stored at the leaves of a BVH node. -/
def Node.leaves : Node α → List (Shape α)
  | .Member left right _ _ => left.leaves ++ right.leaves
  | .Leaf _ _ shape _ => shape.toList
  | .Empty => []

/-- Structural invariant of trees produced by `Tree::build`: a leaf's bbox
is its shape's bbox, and an internal node's bbox contains both children's
bboxes. -/
def Node.wf : Node α → Prop
  | .Member left right _ bbox =>
    left.wf ∧ right.wf ∧ boxIn left.get_bbox bbox ∧ boxIn right.get_bbox bbox
  | .Leaf _ _ shape bbox => ∀ s, shape = some s → s.get_bbox = bbox
  | .Empty => True

theorem leaves_bbox {n : Node α} (hwf : n.wf) :
    ∀ s ∈ n.leaves, boxIn s.get_bbox n.get_bbox := by
  induction n with
  | Member left right oshape bbox ihl ihr =>
    obtain ⟨hwl, hwr, hbl, hbr⟩ := hwf
    intro s hs
    simp only [Node.leaves, List.mem_append] at hs
    rcases hs with hs | hs
    · exact boxIn_trans (ihl hwl s hs) hbl
    · exact boxIn_trans (ihr hwr s hs) hbr
  | Leaf left right oshape bbox ihl ihr =>
    intro s hs
    cases oshape with
    | some s0 =>
      simp only [Node.leaves, Option.toList_some, List.mem_singleton] at hs
      subst hs
      rw [hwf s rfl]
      exact boxIn_refl _
    | none => simp [Node.leaves] at hs
  | Empty => intro s hs; simp [Node.leaves] at hs

theorem build_wf (shapes : List (Shape α)) (depth : Nat) :
    (Tree.build shapes depth).wf := by
  induction shapes, depth using Tree.build.induct with
  | case1 depth => simp [Tree.build, Node.wf]
  | case2 depth s => simp [Tree.build, Node.wf]
  | case3 depth s0 s1 rest axis sorted half ih1 ih2 =>
    rw [Tree.build]
    exact ⟨ih1, ih2, boxIn_add_left _ _, boxIn_add_right _ _⟩

theorem build_leaves_perm (shapes : List (Shape α)) (depth : Nat) :
    (Tree.build shapes depth).leaves.Perm shapes := by
  induction shapes, depth using Tree.build.induct with
  | case1 depth => simp [Tree.build, Node.leaves]
  | case2 depth s => simp [Tree.build, Node.leaves]
  | case3 depth s0 s1 rest axis sorted half ih1 ih2 =>
    rw [Tree.build]
    show ((Tree.build (sorted.take half) (depth + 1)).leaves ++
      (Tree.build (sorted.drop half) (depth + 1)).leaves).Perm _
    refine ((ih1.append ih2).trans ?_)
    rw [List.take_append_drop]
    exact List.perm_insertionSort _ _

/-- Specification of `Tree::intersects_node` on well-formed trees whose
leaf shapes report only in-bbox, non-negative hits: a `Hit` carries a leaf
shape achieving the minimum hit distance among all leaves, and a `Missed`
means no leaf hits. -/
theorem intersects_node_spec {ray : Ray α}
    (hx : ray.dir.x ≠ 0) (hy : ray.dir.y ≠ 0) (hz : ray.dir.z ≠ 0) :
    ∀ n : Node α, n.wf → (∀ s ∈ n.leaves, GoodShape ray s) →
      (∀ os p, Tree.intersects_node n ray = .Hit os p →
        ∃ s, os = some s ∧ s ∈ n.leaves ∧ s.intersects ray = some p ∧
          ∀ s' ∈ n.leaves, ∀ p', s'.intersects ray = some p' → p ≤ p') ∧
      (Tree.intersects_node n ray = .Missed →
        ∀ s' ∈ n.leaves, ∀ p', s'.intersects ray = some p' → False) := by
  intro n
  induction n with
  | Empty =>
    intro _ _
    refine ⟨?_, ?_⟩
    · intro os p h
      simp [Tree.intersects_node] at h
    · intro _ s' hs'
      simp [Node.leaves] at hs'
  | Leaf left right oshape bbox ihl ihr =>
    intro hwf hgood
    cases oshape with
    | none =>
      refine ⟨?_, ?_⟩
      · intro os p h
        simp [Tree.intersects_node] at h
      · intro _ s' hs'
        simp [Node.leaves] at hs'
    | some s =>
      cases hsi : s.intersects ray with
      | none =>
        refine ⟨?_, ?_⟩
        · intro os p h
          simp [Tree.intersects_node, hsi] at h
        · intro _ s' hs' p' hp'
          simp only [Node.leaves, Option.toList_some, List.mem_singleton] at hs'
          subst hs'
          rw [hsi] at hp'
          exact Option.noConfusion hp'
      | some p0 =>
        refine ⟨?_, ?_⟩
        · intro os p h
          simp only [Tree.intersects_node, hsi] at h
          cases h
          refine ⟨s, rfl, by simp [Node.leaves], hsi, ?_⟩
          intro s' hs' p' hp'
          simp only [Node.leaves, Option.toList_some, List.mem_singleton] at hs'
          subst hs'
          rw [hsi] at hp'
          cases hp'
          exact le_refl _
        · intro h
          simp [Tree.intersects_node, hsi] at h
  | Member left right oshape bbox ihl ihr =>
    intro hwf hgood
    have hwf' := hwf
    simp only [Node.wf] at hwf'
    obtain ⟨hwl, hwr, hbl, hbr⟩ := hwf'
    have hgl : ∀ s ∈ left.leaves, GoodShape ray s := fun s hs =>
      hgood s (by simp only [Node.leaves, List.mem_append]; exact Or.inl hs)
    have hgr : ∀ s ∈ right.leaves, GoodShape ray s := fun s hs =>
      hgood s (by simp only [Node.leaves, List.mem_append]; exact Or.inr hs)
    obtain ⟨ihlHit, ihlMiss⟩ := ihl hwl hgl
    obtain ⟨ihrHit, ihrMiss⟩ := ihr hwr hgr
    cases hbb : bbox.intersects ray with
    | false =>
      refine ⟨?_, ?_⟩
      · intro os p h
        simp [Tree.intersects_node, hbb] at h
      · intro _ s' hs' p' hp'
        obtain ⟨hp0, hcont⟩ := hgood s' hs' p' hp'
        have hin : boxIn s'.get_bbox bbox := by
          simpa [Node.get_bbox] using leaves_bbox hwf s' hs'
        have htrue := intersects_of_containsPoint hx hy hz
          (containsPoint_mono hin hcont)
        rw [hbb] at htrue
        exact Bool.noConfusion htrue
    | true =>
      cases hL : Tree.intersects_node left ray with
      | Hit n0 p0 =>
        obtain ⟨sl, hsl_eq, hsl_mem, hsl_hit, hsl_min⟩ := ihlHit n0 p0 hL
        cases hR : Tree.intersects_node right ray with
        | Hit n1 p1 =>
          obtain ⟨sr, hsr_eq, hsr_mem, hsr_hit, hsr_min⟩ := ihrHit n1 p1 hR
          refine ⟨?_, ?_⟩
          · intro os p h
            simp only [Tree.intersects_node, hbb, hL, hR, if_true] at h
            by_cases hcmp : p0 < p1
            · rw [if_pos hcmp] at h
              cases h
              refine ⟨sl, hsl_eq,
                by simp only [Node.leaves, List.mem_append]; exact Or.inl hsl_mem,
                hsl_hit, ?_⟩
              intro s' hs' p' hp'
              simp only [Node.leaves, List.mem_append] at hs'
              rcases hs' with hs' | hs'
              · exact hsl_min s' hs' p' hp'
              · exact le_trans hcmp.le (hsr_min s' hs' p' hp')
            · rw [if_neg hcmp] at h
              cases h
              refine ⟨sr, hsr_eq,
                by simp only [Node.leaves, List.mem_append]; exact Or.inr hsr_mem,
                hsr_hit, ?_⟩
              intro s' hs' p' hp'
              simp only [Node.leaves, List.mem_append] at hs'
              rcases hs' with hs' | hs'
              · exact le_trans (not_lt.mp hcmp) (hsl_min s' hs' p' hp')
              · exact hsr_min s' hs' p' hp'
          · intro h
            simp only [Tree.intersects_node, hbb, hL, hR, if_true] at h
            by_cases hcmp : p0 < p1
            · rw [if_pos hcmp] at h
              exact NodeIntersection.noConfusion h
            · rw [if_neg hcmp] at h
              exact NodeIntersection.noConfusion h
        | Missed =>
          refine ⟨?_, ?_⟩
          · intro os p h
            simp only [Tree.intersects_node, hbb, hL, hR, if_true] at h
            cases h
            refine ⟨sl, hsl_eq,
              by simp only [Node.leaves, List.mem_append]; exact Or.inl hsl_mem,
              hsl_hit, ?_⟩
            intro s' hs' p' hp'
            simp only [Node.leaves, List.mem_append] at hs'
            rcases hs' with hs' | hs'
            · exact hsl_min s' hs' p' hp'
            · exact absurd (ihrMiss hR s' hs' p' hp') not_false
          · intro h
            simp only [Tree.intersects_node, hbb, hL, hR, if_true] at h
            exact NodeIntersection.noConfusion h
      | Missed =>
        cases hR : Tree.intersects_node right ray with
        | Hit n1 p1 =>
          obtain ⟨sr, hsr_eq, hsr_mem, hsr_hit, hsr_min⟩ := ihrHit n1 p1 hR
          refine ⟨?_, ?_⟩
          · intro os p h
            simp only [Tree.intersects_node, hbb, hL, hR, if_true] at h
            cases h
            refine ⟨sr, hsr_eq,
              by simp only [Node.leaves, List.mem_append]; exact Or.inr hsr_mem,
              hsr_hit, ?_⟩
            intro s' hs' p' hp'
            simp only [Node.leaves, List.mem_append] at hs'
            rcases hs' with hs' | hs'
            · exact absurd (ihlMiss hL s' hs' p' hp') not_false
            · exact hsr_min s' hs' p' hp'
          · intro h
            simp only [Tree.intersects_node, hbb, hL, hR, if_true] at h
            exact NodeIntersection.noConfusion h
        | Missed =>
          refine ⟨?_, ?_⟩
          · intro os p h
            simp only [Tree.intersects_node, hbb, hL, hR, if_true] at h
            exact NodeIntersection.noConfusion h
          · intro _ s' hs' p' hp'
            simp only [Node.leaves, List.mem_append] at hs'
            rcases hs' with hs' | hs'
            · exact ihlMiss hL s' hs' p' hp'
            · exact ihrMiss hR s' hs' p' hp'

/-- Loop invariant of `Scene::intersects`: the accumulator holds a genuine
hit, and the final state holds a genuine minimal hit. -/
theorem intersectsAux_spec (ray : Ray α) :
    ∀ (l : List (Shape α)) (acc : SceneIntersection α),
      (∀ q r, acc = some (q, r) → r.intersects ray = some q) →
      (∀ p s, Scene.intersectsAux ray l acc = some (p, s) →
        s.intersects ray = some p ∧ (s ∈ l ∨ acc = some (p, s)) ∧
        (∀ s' ∈ l, ∀ p', s'.intersects ray = some p' → p ≤ p') ∧
        (∀ q r, acc = some (q, r) → p ≤ q)) ∧
      (Scene.intersectsAux ray l acc = none →
        acc = none ∧ ∀ s' ∈ l, ∀ p', s'.intersects ray = some p' → False) := by
  intro l
  induction l with
  | nil =>
    intro acc hacc
    refine ⟨?_, ?_⟩
    · intro p s h
      simp only [Scene.intersectsAux] at h
      exact ⟨hacc p s h, Or.inr h, by simp, fun q r hqr => by
        rw [h] at hqr
        cases hqr
        exact le_refl _⟩
    · intro h
      simp only [Scene.intersectsAux] at h
      exact ⟨h, by simp⟩
  | cons prim rest ih =>
    intro acc hacc
    cases hpi : prim.intersects ray with
    | some np =>
      cases acc with
      | none =>
        have hacc' : ∀ q r, (some (np, prim) : SceneIntersection α) = some (q, r) →
            r.intersects ray = some q := by
          intro q r hqr
          cases hqr
          exact hpi
        obtain ⟨ihHit, ihMiss⟩ := ih (some (np, prim)) hacc'
        refine ⟨?_, ?_⟩
        · intro p s h
          simp only [Scene.intersectsAux, hpi] at h
          obtain ⟨h1, h2, h3, h4⟩ := ihHit p s h
          refine ⟨h1, ?_, ?_, by simp⟩
          · rcases h2 with h2 | h2
            · exact Or.inl (List.mem_cons_of_mem _ h2)
            · cases h2
              exact Or.inl (List.mem_cons_self _ _)
          · intro s' hs' p' hp'
            rcases List.mem_cons.mp hs' with hs' | hs'
            · subst hs'
              rw [hpi] at hp'
              cases hp'
              exact h4 np s' rfl
            · exact h3 s' hs' p' hp'
        · intro h
          simp only [Scene.intersectsAux, hpi] at h
          obtain ⟨habs, _⟩ := ihMiss h
          exact Option.noConfusion habs
      | some pc =>
        obtain ⟨point, cur⟩ := pc
        by_cases hcmp : np < point
        · have hacc' : ∀ q r, (some (np, prim) : SceneIntersection α) = some (q, r) →
              r.intersects ray = some q := by
            intro q r hqr
            cases hqr
            exact hpi
          obtain ⟨ihHit, ihMiss⟩ := ih (some (np, prim)) hacc'
          refine ⟨?_, ?_⟩
          · intro p s h
            simp only [Scene.intersectsAux, hpi, if_pos hcmp] at h
            obtain ⟨h1, h2, h3, h4⟩ := ihHit p s h
            have hple : p ≤ np := h4 np prim rfl
            refine ⟨h1, ?_, ?_, ?_⟩
            · rcases h2 with h2 | h2
              · exact Or.inl (List.mem_cons_of_mem _ h2)
              · cases h2
                exact Or.inl (List.mem_cons_self _ _)
            · intro s' hs' p' hp'
              rcases List.mem_cons.mp hs' with hs' | hs'
              · subst hs'
                rw [hpi] at hp'
                cases hp'
                exact hple
              · exact h3 s' hs' p' hp'
            · intro q r hqr
              cases hqr
              exact le_trans hple hcmp.le
          · intro h
            simp only [Scene.intersectsAux, hpi, if_pos hcmp] at h
            obtain ⟨habs, _⟩ := ihMiss h
            exact Option.noConfusion habs
        · obtain ⟨ihHit, ihMiss⟩ := ih (some (point, cur)) hacc
          refine ⟨?_, ?_⟩
          · intro p s h
            simp only [Scene.intersectsAux, hpi, if_neg hcmp] at h
            obtain ⟨h1, h2, h3, h4⟩ := ihHit p s h
            have hple : p ≤ point := h4 point cur rfl
            refine ⟨h1, ?_, ?_, ?_⟩
            · rcases h2 with h2 | h2
              · exact Or.inl (List.mem_cons_of_mem _ h2)
              · exact Or.inr h2
            · intro s' hs' p' hp'
              rcases List.mem_cons.mp hs' with hs' | hs'
              · subst hs'
                rw [hpi] at hp'
                cases hp'
                exact le_trans hple (not_lt.mp hcmp)
              · exact h3 s' hs' p' hp'
            · intro q r hqr
              cases hqr
              exact hple
          · intro h
            simp only [Scene.intersectsAux, hpi, if_neg hcmp] at h
            obtain ⟨habs, _⟩ := ihMiss h
            exact Option.noConfusion habs
    | none =>
      obtain ⟨ihHit, ihMiss⟩ := ih acc hacc
      refine ⟨?_, ?_⟩
      · intro p s h
        simp only [Scene.intersectsAux, hpi] at h
        obtain ⟨h1, h2, h3, h4⟩ := ihHit p s h
        refine ⟨h1, ?_, ?_, h4⟩
        · rcases h2 with h2 | h2
          · exact Or.inl (List.mem_cons_of_mem _ h2)
          · exact Or.inr h2
        · intro s' hs' p' hp'
          rcases List.mem_cons.mp hs' with hs' | hs'
          · subst hs'
            rw [hpi] at hp'
            exact Option.noConfusion hp'
          · exact h3 s' hs' p' hp'
      · intro h
        simp only [Scene.intersectsAux, hpi] at h
        obtain ⟨hnone, hmiss⟩ := ihMiss h
        refine ⟨hnone, ?_⟩
        intro s' hs' p' hp'
        rcases List.mem_cons.mp hs' with hs' | hs'
        · subst hs'
          rw [hpi] at hp'
          exact Option.noConfusion hp'
        · exact hmiss s' hs' p' hp'

/-- `Scene::intersects` returns a genuine minimal hit. -/
theorem scene_intersects_sound {primitives : List (Shape α)} {ray : Ray α}
    {p : α} {s : Shape α} (h : Scene.intersects primitives ray = some (p, s)) :
    s ∈ primitives ∧ s.intersects ray = some p ∧
      ∀ s' ∈ primitives, ∀ p', s'.intersects ray = some p' → p ≤ p' := by
  obtain ⟨ihHit, _⟩ := intersectsAux_spec ray primitives none (by simp)
  obtain ⟨h1, h2, h3, _⟩ := ihHit p s h
  rcases h2 with h2 | h2
  · exact ⟨h2, h1, h3⟩
  · exact Option.noConfusion h2

/-- If `Scene::intersects` misses, no primitive hits. -/
theorem scene_intersects_none {primitives : List (Shape α)} {ray : Ray α}
    (h : Scene.intersects primitives ray = none) :
    ∀ s' ∈ primitives, ∀ p', s'.intersects ray = some p' → False := by
  obtain ⟨_, ihMiss⟩ := intersectsAux_spec ray primitives none (by simp)
  exact (ihMiss h).2

/-- C1 (amended): for every primitive list and every ray whose direction
has no zero component, provided each primitive reports only non-negative
hit distances whose hit points lie inside its bounding box, the
linear-scan `Scene::intersects` and the BVH `BvhScene::intersects` over
`Tree::init` of the same list agree: the BVH never panics, both miss
together, and on a hit both return the same hit distance; they return the
same primitive whenever exactly one primitive attains that distance (on an
exact tie the linear scan keeps the first primitive in list order while
the BVH combine rule prefers the right subtree, so the primitives may
differ). -/
theorem c1_linear_bvh_agreement (primitives : List (Shape α)) (ray : Ray α)
    (hx : ray.dir.x ≠ 0) (hy : ray.dir.y ≠ 0) (hz : ray.dir.z ≠ 0)
    (hgood : ∀ s ∈ primitives, GoodShape ray s) :
    ∃ res : SceneIntersection α,
      BvhScene.intersects (Tree.init primitives) ray = some res ∧
      ((Scene.intersects primitives ray = none ∧ res = none) ∨
        (∃ p s s', Scene.intersects primitives ray = some (p, s) ∧
          res = some (p, s') ∧ s ∈ primitives ∧ s' ∈ primitives ∧
          ((∀ s1 ∈ primitives, ∀ s2 ∈ primitives,
              s1.intersects ray = some p → s2.intersects ray = some p →
              s1 = s2) → s = s'))) := by
  have hperm := build_leaves_perm primitives 0
  have hwf := build_wf primitives 0
  have hgood' : ∀ s ∈ (Tree.build primitives 0).leaves, GoodShape ray s :=
    fun s hs => hgood s (hperm.mem_iff.mp hs)
  obtain ⟨bHit, bMiss⟩ :=
    intersects_node_spec hx hy hz (Tree.build primitives 0) hwf hgood'
  cases hB : Tree.intersects_node (Tree.build primitives 0) ray with
  | Missed =>
    refine ⟨none, ?_, Or.inl ⟨?_, rfl⟩⟩
    · simp [BvhScene.intersects, Tree.intersects, Tree.init, hB]
    · cases hL : Scene.intersects primitives ray with
      | none => rfl
      | some pr =>
        obtain ⟨p, s⟩ := pr
        obtain ⟨hmem, hhit, _⟩ := scene_intersects_sound hL
        exact absurd (bMiss hB s (hperm.mem_iff.mpr hmem) p hhit) not_false
  | Hit os p =>
    obtain ⟨s', hos, hmem', hhit', hmin'⟩ := bHit os p hB
    cases hL : Scene.intersects primitives ray with
    | none =>
      exact absurd
        (scene_intersects_none hL s' (hperm.mem_iff.mp hmem') p hhit') not_false
    | some pr =>
      obtain ⟨pl, s⟩ := pr
      obtain ⟨hmem, hhit, hmin⟩ := scene_intersects_sound hL
      have h1 : p ≤ pl := hmin' s (hperm.mem_iff.mpr hmem) pl hhit
      have h2 : pl ≤ p := hmin s' (hperm.mem_iff.mp hmem') p hhit'
      have hpe : pl = p := le_antisymm h2 h1
      subst hpe
      refine ⟨some (pl, s'), ?_,
        Or.inr ⟨pl, s, s', rfl, rfl, hmem, hperm.mem_iff.mp hmem', ?_⟩⟩
      · simp [BvhScene.intersects, Tree.intersects, Tree.init, hB, hos]
      · intro huniq
        exact huniq s hmem s' (hperm.mem_iff.mp hmem') hhit hhit'

/-- First counterexample triangle: interior hit at `t = 1` for the ray
below; bbox x-extent `[-10, 12]`, centroid x = 1. -/
def polyA : MeshPoly ℚ :=
  ⟨Vec3.init (-10) (-10) (-5), Vec3.init 12 (-10) (-5), Vec3.init 1 22 (-5)⟩

/-- Second counterexample triangle: interior hit also at `t = 1`; bbox
x-extent `[-9, 13]`, centroid x = 2. -/
def polyB : MeshPoly ℚ :=
  ⟨Vec3.init (-9) (-10) (-5), Vec3.init 13 (-10) (-5), Vec3.init 2 22 (-5)⟩

def shapeA : Shape ℚ := polyA.toShape Material.new

def shapeB : Shape ℚ := polyB.toShape Material.new

/-- Query ray with all direction components nonzero, hitting both
counterexample triangles in their interiors at `t = 1`. -/
def rayW : Ray ℚ := Ray.init (Vec3.init 0 0 0) (Vec3.init 1 2 (-5))

/-- Projection of a scene intersection onto decidable data (hit distance
and the hit shape's bounding box). -/
def sceneResProj (r : SceneIntersection ℚ) : Option (ℚ × BoundingBox ℚ) :=
  r.map fun pr => (pr.1, pr.2.get_bbox)

unseal Rat.add Rat.mul Rat.inv Rat.sub Nat.gcd in
/-- C1 witness: agreement instantiated on a concrete one-triangle scene. -/
theorem c1_linear_bvh_agreement_witness :
    ∃ res : SceneIntersection ℚ,
      BvhScene.intersects (Tree.init [shapeA]) rayW = some res ∧
      ((Scene.intersects [shapeA] rayW = none ∧ res = none) ∨
        (∃ p s s', Scene.intersects [shapeA] rayW = some (p, s) ∧
          res = some (p, s') ∧ s ∈ [shapeA] ∧ s' ∈ [shapeA] ∧
          ((∀ s1 ∈ [shapeA], ∀ s2 ∈ [shapeA],
              s1.intersects rayW = some p → s2.intersects rayW = some p →
              s1 = s2) → s = s'))) := by
  refine c1_linear_bvh_agreement [shapeA] rayW (by decide) (by decide)
    (by decide) ?_
  intro s hs
  rw [List.mem_singleton] at hs
  subst hs
  intro t ht
  have he : shapeA.intersects rayW = some 1 := by decide
  rw [he] at ht
  cases ht
  exact ⟨by decide, by decide⟩

unseal Rat.add Rat.mul Rat.inv Rat.sub Nat.gcd in
/-- C1 counterexample: two disjoint-bbox triangles both hit (in their
interiors, not on a boundary) at the exact same distance `t = 1`; the
linear scan returns the first one (`polyA`) while the BVH returns the
other (`polyB`), so the two strategies do not return the same primitive. -/
theorem c1_tie_counterexample :
    sceneResProj (Scene.intersects [shapeA, shapeB] rayW) =
      some (1, polyA.get_bbox) ∧
    (BvhScene.intersects (Tree.init [shapeA, shapeB]) rayW).map sceneResProj =
      some (some (1, polyB.get_bbox)) ∧
    polyA.get_bbox ≠ polyB.get_bbox := by
  have hr : shapeA.get_bbox.centroid.idx (0 % 3) <
      shapeB.get_bbox.centroid.idx (0 % 3) := by decide
  have e2 : Tree.build [shapeA] 1 =
      Node.Leaf .Empty .Empty (some shapeA) shapeA.get_bbox := by
    simp only [Tree.build]
  have e3 : Tree.build [shapeB] 1 =
      Node.Leaf .Empty .Empty (some shapeB) shapeB.get_bbox := by
    simp only [Tree.build]
  have e1 : Tree.init [shapeA, shapeB] =
      TreeNode.init (Node.Leaf .Empty .Empty (some shapeA) shapeA.get_bbox)
        (Node.Leaf .Empty .Empty (some shapeB) shapeB.get_bbox) := by
    rw [Tree.init]
    simp only [Tree.build]
    simp only [List.insertionSort, List.orderedInsert, List.length_cons,
      List.length_nil]
    rw [if_pos hr]
    norm_num [List.take, List.drop, e2, e3]
  refine ⟨by decide, ?_, by decide⟩
  rw [e1]
  decide

/-! ### Real-valued vector operations (the source calls `f32::sqrt`) -/

/-- `Vec3::length`. -/
noncomputable def Vec3.length (v : Vec3 ℝ) : ℝ :=
  Real.sqrt (v.x * v.x + v.y * v.y + v.z * v.z)

/-- `Vec3::normalize` — the source mutates in place and leaves the vector
unchanged when its length is `0`; modelled functionally. -/
noncomputable def Vec3.normalize (v : Vec3 ℝ) : Vec3 ℝ :=
  let len := v.length
  if len ≠ 0 then Vec3.init (v.x / len) (v.y / len) (v.z / len) else v

/-- `Vec3::distance`. -/
noncomputable def Vec3.distance (v other : Vec3 ℝ) : ℝ :=
  let a := v.x - other.x
  let b := v.y - other.y
  let c := v.z - other.z
  Real.sqrt (a * a + b * b + c * c)

/-- `Vec3::get_area` — area of the triangle spanned by three points. -/
noncomputable def Vec3.get_area (a b c : Vec3 ℝ) : ℝ :=
  let ab := b - a
  let ac := c - a
  (ab.cross ac).length * 0.5

/-- `Color::scalar` — Euclidean norm of the channels. -/
noncomputable def Color.scalar (c : Color ℝ) : ℝ :=
  Real.sqrt (c.r * c.r + c.g * c.g + c.b * c.b)

/-! ### Sphere (`src/scene/shapes/sphere.rs`) -/

/-- `Sphere`: origin, radius, materials, plus the per-axis fields that the
intersection code never consults. -/
structure Sphere where
  materials : List (Material ℝ)
  origin : Vec3 ℝ
  radius : ℝ
  xaxis : Vec3 ℝ
  xlength : ℝ
  yaxis : Vec3 ℝ
  ylength : ℝ
  zaxis : Vec3 ℝ
  zlength : ℝ

/-- `Sphere::new`. -/
noncomputable def Sphere.new : Sphere :=
  ⟨[], Vec3.new, 0, Vec3.new, 0, Vec3.new, 0, Vec3.new, 0⟩

/-- `Sphere::init`. -/
noncomputable def Sphere.init (origin : Vec3 ℝ) (radius : ℝ) : Sphere :=
  ⟨[Material.new], origin, radius, Vec3.new, 0, Vec3.new, 0, Vec3.new, 0⟩

/-- Quadratic coefficient `a = d·d` of `Sphere::intersects`. -/
noncomputable def Sphere.quadA (_s : Sphere) (ray : Ray ℝ) : ℝ :=
  ray.dir.dot ray.dir

/-- Quadratic coefficient `b = 2·d·o` of `Sphere::intersects` (with the
ray origin translated into object space). -/
noncomputable def Sphere.quadB (s : Sphere) (ray : Ray ℝ) : ℝ :=
  2 * ray.dir.dot (ray.ori - s.origin)

/-- Quadratic coefficient `c = o·o − r²` of `Sphere::intersects`. -/
noncomputable def Sphere.quadC (s : Sphere) (ray : Ray ℝ) : ℝ :=
  (ray.ori - s.origin).dot (ray.ori - s.origin) - s.radius * s.radius

/-- Discriminant `b² − 4ac` of `Sphere::intersects`. -/
noncomputable def Sphere.disc (s : Sphere) (ray : Ray ℝ) : ℝ :=
  s.quadB ray * s.quadB ray - 4 * s.quadA ray * s.quadC ray

/-- The stable half-angle quantity `q` of `Sphere::intersects` (sign chosen
by the sign of `b`). -/
noncomputable def Sphere.qval (s : Sphere) (ray : Ray ℝ) : ℝ :=
  let dist_sqrt := Real.sqrt (s.disc ray)
  if s.quadB ray < 0 then (-s.quadB ray - dist_sqrt) / 2
  else (-s.quadB ray + dist_sqrt) / 2

/-- `Sphere::intersects` (`src/scene/shapes/sphere.rs` lines 54-103):
negative discriminant misses; otherwise `t0 = q/a`, `t1 = c/q`, ordered;
a negative farther root misses; otherwise the smallest non-negative root
is returned. -/
noncomputable def Sphere.intersects (s : Sphere) (ray : Ray ℝ) : Option ℝ :=
  if s.disc ray < 0 then none
  else
    let q := s.qval ray
    let t0 := q / s.quadA ray
    let t1 := s.quadC ray / q
    let p := if t0 > t1 then (t1, t0) else (t0, t1)
    let t0 := p.1
    let t1 := p.2
    if t1 < 0 then none
    else if t0 < 0 then some t1 else some t0

@[simp] theorem Vec3.add_x (a b : Vec3 α) : (a + b).x = a.x + b.x := rfl

@[simp] theorem Vec3.add_y (a b : Vec3 α) : (a + b).y = a.y + b.y := rfl

@[simp] theorem Vec3.add_z (a b : Vec3 α) : (a + b).z = a.z + b.z := rfl

@[simp] theorem Vec3.sub_x (a b : Vec3 α) : (a - b).x = a.x - b.x := rfl

@[simp] theorem Vec3.sub_y (a b : Vec3 α) : (a - b).y = a.y - b.y := rfl

@[simp] theorem Vec3.sub_z (a b : Vec3 α) : (a - b).z = a.z - b.z := rfl

omit [LinearOrderedField α] in
@[simp] theorem Vec3.init_x (x y z : α) : (Vec3.init x y z).x = x := rfl

omit [LinearOrderedField α] in
@[simp] theorem Vec3.init_y (x y z : α) : (Vec3.init x y z).y = y := rfl

omit [LinearOrderedField α] in
@[simp] theorem Vec3.init_z (x y z : α) : (Vec3.init x y z).z = z := rfl

@[simp] theorem Vec3.mult_x (v : Vec3 α) (n : α) : (v.mult n).x = v.x * n := rfl

@[simp] theorem Vec3.mult_y (v : Vec3 α) (n : α) : (v.mult n).y = v.y * n := rfl

@[simp] theorem Vec3.mult_z (v : Vec3 α) (n : α) : (v.mult n).z = v.z * n := rfl

omit [LinearOrderedField α] in
@[simp] theorem Ray.init_ori (ori dir : Vec3 α) : (Ray.init ori dir).ori = ori := rfl

omit [LinearOrderedField α] in
@[simp] theorem Ray.init_dir (ori dir : Vec3 α) : (Ray.init ori dir).dir = dir := rfl

omit [LinearOrderedField α] in
@[simp] theorem Ray.init_vacuum (ori dir : Vec3 α) :
    (Ray.init ori dir).vacuum = true := rfl

theorem sqrt_four : Real.sqrt 4 = 2 := by
  rw [show (4 : ℝ) = 2 ^ 2 by norm_num]
  exact Real.sqrt_sq (by norm_num)

/-- C7: `Sphere::intersects` misses exactly when the discriminant is
negative or the farther of `t0 = q/a`, `t1 = c/q` is negative, and
otherwise returns the smallest non-negative of the two; when the
discriminant is non-negative (and `a`, `q` are nonzero) `t0` and `t1` are
genuine roots of the quadratic `a·t² + b·t + c`; and the unit sphere at
`(0,0,-5)` hit by the ray from the origin with direction `(0,0,-1)`
reports hit distance exactly `4`. -/
theorem c7_sphere_intersects_spec (s : Sphere) (ray : Ray ℝ)
    (ha : s.quadA ray ≠ 0) (hq : s.qval ray ≠ 0) :
    (0 ≤ s.disc ray →
      s.quadA ray * (s.qval ray / s.quadA ray) ^ 2 +
          s.quadB ray * (s.qval ray / s.quadA ray) + s.quadC ray = 0 ∧
        s.quadA ray * (s.quadC ray / s.qval ray) ^ 2 +
          s.quadB ray * (s.quadC ray / s.qval ray) + s.quadC ray = 0) ∧
    (s.disc ray < 0 → s.intersects ray = none) ∧
    (Max.max (s.qval ray / s.quadA ray) (s.quadC ray / s.qval ray) < 0 →
      s.intersects ray = none) ∧
    (0 ≤ s.disc ray →
      0 ≤ Max.max (s.qval ray / s.quadA ray) (s.quadC ray / s.qval ray) →
      s.intersects ray = some
        (if Min.min (s.qval ray / s.quadA ray) (s.quadC ray / s.qval ray) < 0
          then Max.max (s.qval ray / s.quadA ray) (s.quadC ray / s.qval ray)
          else Min.min (s.qval ray / s.quadA ray) (s.quadC ray / s.qval ray))) ∧
    Sphere.intersects (Sphere.init (Vec3.init 0 0 (-5)) 1)
      (Ray.init (Vec3.init 0 0 0) (Vec3.init 0 0 (-1))) = some 4 := by
  have hkey : 0 ≤ s.disc ray →
      s.qval ray ^ 2 + s.quadB ray * s.qval ray +
        s.quadA ray * s.quadC ray = 0 := by
    intro hd
    have hs : Real.sqrt (s.disc ray) ^ 2 =
        s.quadB ray * s.quadB ray - 4 * s.quadA ray * s.quadC ray := by
      rw [Real.sq_sqrt hd, Sphere.disc]
    rw [Sphere.qval]
    split_ifs with hb
    · linear_combination (1 / 4 : ℝ) * hs
    · linear_combination (1 / 4 : ℝ) * hs
  refine ⟨?_, ?_, ?_, ?_, ?_⟩
  · intro hd
    have h0 := hkey hd
    constructor
    · field_simp
      linear_combination s.quadA ray ^ 2 * h0
    · field_simp
      linear_combination s.quadC ray * s.qval ray * h0
  · intro hd
    simp only [Sphere.intersects, if_pos hd]
  · intro hmax
    by_cases hd : s.disc ray < 0
    · simp only [Sphere.intersects, if_pos hd]
    · simp only [Sphere.intersects, if_neg hd, minmax_pair]
      rw [if_pos hmax]
  · intro hd0 hmax
    simp only [Sphere.intersects, if_neg (not_lt.mpr hd0), minmax_pair]
    rw [if_neg (not_lt.mpr hmax)]
    split_ifs <;> rfl
  · have harg : Sphere.disc (Sphere.init (Vec3.init 0 0 (-5)) 1)
        (Ray.init (Vec3.init 0 0 0) (Vec3.init 0 0 (-1))) = 4 := by
      simp only [Sphere.disc, Sphere.quadA, Sphere.quadB, Sphere.quadC,
        Sphere.init, Vec3.dot]
      norm_num
    have hb : Sphere.quadB (Sphere.init (Vec3.init 0 0 (-5)) 1)
        (Ray.init (Vec3.init 0 0 0) (Vec3.init 0 0 (-1))) = -10 := by
      simp only [Sphere.quadB, Sphere.init, Vec3.dot]
      norm_num
    have hqv : Sphere.qval (Sphere.init (Vec3.init 0 0 (-5)) 1)
        (Ray.init (Vec3.init 0 0 0) (Vec3.init 0 0 (-1))) = 4 := by
      rw [Sphere.qval, harg, hb, sqrt_four]
      norm_num
    have hav : Sphere.quadA (Sphere.init (Vec3.init 0 0 (-5)) 1)
        (Ray.init (Vec3.init 0 0 0) (Vec3.init 0 0 (-1))) = 1 := by
      simp only [Sphere.quadA, Vec3.dot]
      norm_num
    have hcv : Sphere.quadC (Sphere.init (Vec3.init 0 0 (-5)) 1)
        (Ray.init (Vec3.init 0 0 0) (Vec3.init 0 0 (-1))) = 24 := by
      simp only [Sphere.quadC, Sphere.init, Vec3.dot]
      norm_num
    rw [Sphere.intersects, harg, hqv, hav, hcv]
    norm_num

/-- C7 witness: the spec instantiated at the unit sphere `(0,0,-5)` and
the axis ray, where `a = 1` and `q = 4` are nonzero. -/
theorem c7_sphere_intersects_spec_witness :
    Sphere.intersects (Sphere.init (Vec3.init 0 0 (-5)) 1)
      (Ray.init (Vec3.init 0 0 0) (Vec3.init 0 0 (-1))) = some 4 := by
  have hav : Sphere.quadA (Sphere.init (Vec3.init 0 0 (-5)) 1)
      (Ray.init (Vec3.init 0 0 0) (Vec3.init 0 0 (-1))) = 1 := by
    simp only [Sphere.quadA, Vec3.dot]
    norm_num
  have harg : Sphere.disc (Sphere.init (Vec3.init 0 0 (-5)) 1)
      (Ray.init (Vec3.init 0 0 0) (Vec3.init 0 0 (-1))) = 4 := by
    simp only [Sphere.disc, Sphere.quadA, Sphere.quadB, Sphere.quadC,
      Sphere.init, Vec3.dot]
    norm_num
  have hb : Sphere.quadB (Sphere.init (Vec3.init 0 0 (-5)) 1)
      (Ray.init (Vec3.init 0 0 0) (Vec3.init 0 0 (-1))) = -10 := by
    simp only [Sphere.quadB, Sphere.init, Vec3.dot]
    norm_num
  have hqv : Sphere.qval (Sphere.init (Vec3.init 0 0 (-5)) 1)
      (Ray.init (Vec3.init 0 0 0) (Vec3.init 0 0 (-1))) = 4 := by
    rw [Sphere.qval, harg, hb, sqrt_four]
    norm_num
  exact (c7_sphere_intersects_spec (Sphere.init (Vec3.init 0 0 (-5)) 1)
    (Ray.init (Vec3.init 0 0 0) (Vec3.init 0 0 (-1)))
    (by rw [hav]; norm_num) (by rw [hqv]; norm_num)).2.2.2.2

/-! ### Triangle with per-vertex data (`src/scene/shapes/poly.rs`) -/

/-- `Vertex` (`src/scene/shapes/poly.rs`). -/
structure Vertex where
  mat_index : Nat
  has_normal : Bool
  position : Vec3 ℝ
  normal : Vec3 ℝ

/-- `Poly` (`src/scene/shapes/poly.rs`): three vertices, a material list,
and the per-vertex material/normal binding flags.  Its Möller–Trumbore
`intersects` is textually identical to the one embedded as
`MeshPoly.intersects`. -/
structure Poly where
  materials : List (Material ℝ)
  vertices : Vertex × Vertex × Vertex
  vertex_material : Bool
  vertex_normal : Bool

/-- `impl Index<u32, Vertex> for Poly`; only indices `0`, `1`, `2` occur. -/
def Poly.vtx (p : Poly) : Nat → Vertex
  | 0 => p.vertices.1
  | 1 => p.vertices.2.1
  | _ => p.vertices.2.2

/-- `Poly::weighted_areas` (`src/scene/shapes/poly.rs` lines 81-92): the
three sub-triangle areas normalised by the full area; when any normalised
weight exceeds `1` the source runs `fail!("Cannot get area, as point is
outside of poly")`, modelled as `none`. -/
noncomputable def Poly.weighted_areas (p : Poly) (point : Vec3 ℝ) :
    Option (ℝ × ℝ × ℝ) :=
  let area := Vec3.get_area (p.vtx 0).position (p.vtx 1).position
    (p.vtx 2).position
  let area0 := Vec3.get_area (p.vtx 0).position (p.vtx 1).position point / area
  let area1 := Vec3.get_area (p.vtx 2).position (p.vtx 0).position point / area
  let area2 := Vec3.get_area (p.vtx 1).position (p.vtx 2).position point / area
  if area0 > 1 ∨ area1 > 1 ∨ area2 > 1 then none
  else some (area0, area1, area2)

/-- `Poly::interpolated_color` — weights the three materials' diffuse
colors by `(area2, area1, area0)`; propagates the `weighted_areas` abort. -/
noncomputable def Poly.interpolated_color (p : Poly) (point : Vec3 ℝ) :
    Option (Color ℝ) :=
  (p.weighted_areas point).map fun w =>
    (p.materials.getD 0 Material.new).diffuse.mult w.2.2 +
      (p.materials.getD 1 Material.new).diffuse.mult w.2.1 +
      (p.materials.getD 2 Material.new).diffuse.mult w.1

/-- `Poly::static_normal`. -/
noncomputable def Poly.static_normal (p : Poly) : Vec3 ℝ :=
  ((p.vtx 1).position - (p.vtx 0).position).cross
    ((p.vtx 2).position - (p.vtx 0).position)

/-- `Poly::interpolated_normal`; propagates the `weighted_areas` abort. -/
noncomputable def Poly.interpolated_normal (p : Poly) (point : Vec3 ℝ) :
    Option (Vec3 ℝ) :=
  (p.weighted_areas point).map fun w =>
    (p.vtx 0).normal.mult w.2.2 + (p.vtx 1).normal.mult w.2.1 +
      (p.vtx 2).normal.mult w.1

/-- `Poly::surface_normal` — normalise, then flip against the incoming
direction. -/
noncomputable def Poly.surface_normal (p : Poly) (direction _point : Vec3 ℝ) :
    Option (Vec3 ℝ) :=
  (match p.vertex_normal with
    | true => p.interpolated_normal _point
    | false => some p.static_normal : Option (Vec3 ℝ)).map fun n0 =>
    let normal := n0.normalize
    if normal.dot direction > 0 then normal.invert else normal

/-- `Poly::diffuse_color` (`src/scene/shapes/poly.rs` lines 183-188). -/
noncomputable def Poly.diffuse_color (p : Poly) (point : Vec3 ℝ) :
    Option (Color ℝ) :=
  match p.vertex_material with
  | true => p.interpolated_color point
  | false => some (p.materials.getD 0 Material.new).diffuse

/-- Concrete triangle `(0,0,0),(1,0,0),(0,1,0)` with per-vertex material
binding. -/
noncomputable def c8poly : Poly :=
  ⟨[Material.new, Material.new, Material.new],
    (⟨0, false, Vec3.init 0 0 0, Vec3.new⟩,
      ⟨0, false, Vec3.init 1 0 0, Vec3.new⟩,
      ⟨0, false, Vec3.init 0 1 0, Vec3.new⟩),
    true, false⟩

/-- C8: at the query point `(2,0,0)` (outside the triangle's support) the
normalised sub-area weight `area1 = 2` exceeds `1`, and `weighted_areas`
aborts (`fail!`) instead of failing gracefully; `diffuse_color` with
per-vertex material binding propagates the abort. -/
theorem c8_weighted_areas_aborts :
    c8poly.weighted_areas (Vec3.init 2 0 0) = none ∧
      c8poly.diffuse_color (Vec3.init 2 0 0) = none := by
  have harea : Vec3.get_area (Vec3.init 0 0 0) (Vec3.init 1 0 0)
      (Vec3.init 0 1 0) = 1 / 2 := by
    simp only [Vec3.get_area, Vec3.length, Vec3.cross, Vec3.sub_x, Vec3.sub_y,
      Vec3.sub_z, Vec3.init_x, Vec3.init_y, Vec3.init_z]
    norm_num [Real.sqrt_one]
  have h1 : Vec3.get_area (Vec3.init 0 1 0) (Vec3.init 0 0 0)
      (Vec3.init 2 0 0) = 1 := by
    simp only [Vec3.get_area, Vec3.length, Vec3.cross, Vec3.sub_x, Vec3.sub_y,
      Vec3.sub_z, Vec3.init_x, Vec3.init_y, Vec3.init_z]
    norm_num [sqrt_four]
  have hwa : c8poly.weighted_areas (Vec3.init 2 0 0) = none := by
    simp only [Poly.weighted_areas, c8poly, Poly.vtx]
    rw [harea, h1]
    rw [if_pos]
    exact Or.inr (Or.inl (by norm_num))
  refine ⟨hwa, ?_⟩
  have hdc : c8poly.diffuse_color (Vec3.init 2 0 0) =
      c8poly.interpolated_color (Vec3.init 2 0 0) := rfl
  rw [hdc, Poly.interpolated_color, hwa]
  rfl

/-! ### Lights (`src/rscene.rs`, as consumed by `src/lib.rs`) -/

/-- `LightType`. -/
inductive LightType where
  | PointLight
  | AreaLight
  | DirectionalLight
deriving DecidableEq

/-- `Light {kind, pos, dir, intensity}`. -/
structure Light where
  kind : LightType
  pos : Vec3 ℝ
  dir : Vec3 ℝ
  intensity : Color ℝ

/-! ### Intersection record (`src/scene/intersection.rs`) -/

/-- `Intersection {point, ray, shape}` — the `point` field is the
parametric hit distance; the hit primitive is carried through its `Shape`
capabilities. -/
structure Intersection where
  point : ℝ
  ray : Ray ℝ
  shape : Shape ℝ

/-- `Intersection::point()` — `ray.ori + ray.dir.mult(point)`. -/
noncomputable def Intersection.pointVec (i : Intersection) : Vec3 ℝ :=
  i.ray.ori + i.ray.dir.mult i.point

/-- `Intersection::direction`. -/
def Intersection.direction (i : Intersection) : Vec3 ℝ := i.ray.dir

/-- `Intersection::color` — note: the material's diffuse color, not
`Shape::diffuse_color`. -/
def Intersection.color (i : Intersection) : Color ℝ :=
  i.shape.get_material.diffuse

/-- `Intersection::material`. -/
def Intersection.material (i : Intersection) : Material ℝ :=
  i.shape.get_material

/-- `Intersection::surface_normal`. -/
noncomputable def Intersection.surface_normal (i : Intersection) : Vec3 ℝ :=
  i.shape.surface_normal i.ray.dir i.pointVec

/-- `Intersection::reflective_ray` (`src/scene/intersection.rs` lines
41-47): origin offset `1e-4` along the normal, direction
`2(N·V)N − V`, built with `Ray::init` (so its medium flag is `true`). -/
noncomputable def Intersection.reflective_ray (i : Intersection) : Ray ℝ :=
  let normal := i.surface_normal
  let d0 := i.ray.dir.invert
  let origin := i.pointVec + normal.mult 0.0001
  let direction := normal.mult (d0.dot normal * 2) - d0
  Ray.init origin direction

/-- `Intersection::refractive_ray` (`src/scene/intersection.rs` lines
49-80): binary air/glass index selected by the incoming ray's medium flag,
normal flipped to the incidence side, `None` on total internal reflection,
otherwise a ray built by `Ray::init` (medium flag `true`) on which
`switch_medium` is called once. -/
noncomputable def Intersection.refractive_ray (i : Intersection) :
    Option (Ray ℝ) :=
  let in_dir := i.ray.dir
  let normal0 := i.surface_normal
  let n : ℝ := if i.ray.in_vacuum then 1 / 1.5 else 1.5 / 1
  let cos_in := normal0.dot in_dir
  let normal := if cos_in > 0 then normal0.invert else normal0
  let c := in_dir.dot normal
  let cos_phi_2 := 1 - n * n * (1 - c * c)
  if cos_phi_2 < 0 then none
  else
    let cos_phi := Real.sqrt cos_phi_2
    let term1 := (in_dir - normal.mult c).mult n
    let direction := term1 - normal.mult cos_phi
    let origin := i.pointVec - normal.mult 0.01
    some (Ray.init origin direction).switch_medium

/-- The `IntersectableScene` trait of `src/scene/mod.rs` as used by the
shading engine: the lights and the nearest-intersection query
(`get_camera` is irrelevant to shading and omitted).  `Intersected(r)` is
`some r`, `Missed` is `none`. -/
structure IntersectableScene where
  get_lights : List Light
  intersects : Ray ℝ → Option Intersection

/-! ### Shading engine (`src/lib.rs`) -/

/-- `static AREA_SAMPLES: uint = 10`. -/
def AREA_SAMPLES : Nat := 10

/-- One area-light direction sample (`src/lib.rs` lines 127-138 and
219-230, identical formulas): the random triple `(rx, ry, rz)` drawn from
`Open01` is passed in explicitly. -/
noncomputable def areaSampleDir (light : Light) (ori : Vec3 ℝ)
    (r : ℝ × ℝ × ℝ) : Vec3 ℝ :=
  let dx0 := abs (light.pos.idx 0 - light.dir.idx 0) * 0.5
  let dy0 := abs (light.pos.idx 1 - light.dir.idx 1) * 0.5
  let dz0 := abs (light.pos.idx 2 - light.dir.idx 2) * 0.5
  let dx := dx0 - r.1 * (dx0 * 2)
  let dy := dy0 - r.2.1 * (dy0 * 2)
  let dz := dz0 - r.2.2 * (dz0 * 2)
  (Vec3.init (light.pos.idx 0 + dx) (light.pos.idx 1 + dy)
    (light.pos.idx 2 + dz) - ori).normalize

/-- The `(ori, dirs)` computation of `RayTracer::shadow_scalar`
(`src/lib.rs` lines 110-142): the shadow-ray origin and the light
direction samples per light kind. -/
noncomputable def shadow_ori_dirs (light : Light)
    (intersection : Intersection) (num_samples : Nat)
    (rnd : Nat → ℝ × ℝ × ℝ) : Vec3 ℝ × List (Vec3 ℝ) :=
  match light.kind with
  | .DirectionalLight =>
    let dir := light.dir.invert
    let ori := intersection.pointVec + dir.mult 0.0001
    (ori, [dir])
  | .PointLight =>
    let ori0 := intersection.pointVec
    let dir := (light.pos - ori0).normalize
    let ori := ori0 + dir.mult 0.0001
    (ori, [dir])
  | .AreaLight =>
    let ori := intersection.pointVec + intersection.surface_normal.mult 0.0001
    let dirs := (List.range num_samples).map fun k => areaSampleDir light ori
      (rnd k)
    (ori, dirs)

/-- The per-sample body of the `shadow_scalar` loop (`src/lib.rs` lines
146-163), with the recursive call abstracted as `rec`: 1 on a miss, the
behind-the-light test for opaque occluders under a point light, 0 for
other opaque occluders, and `transparency * rec(occluder).r` for
transparent occluders. -/
noncomputable def shadow_sample (scene : IntersectableScene) (light : Light)
    (rec : Intersection → Color ℝ) (ori dest dir : Vec3 ℝ) : ℝ :=
  let shadow := Ray.init ori dir
  match scene.intersects shadow with
  | some inter =>
    let material := inter.material
    if material.transparency = 0 then
      match light.kind with
      | .PointLight =>
        if ori.distance inter.pointVec > ori.distance dest then (1 : ℝ)
        else 0
      | _ => 0
    else material.transparency * (rec inter).r
  | none => (1 : ℝ)

/-- `RayTracer::shadow_scalar` (`src/lib.rs` lines 105-168): recursion on
`depth` (`depth <= 0` returns black); the per-sample values
(`shadow_sample`) are summed, averaged over the samples, and returned as a
grey color. -/
noncomputable def shadow_scalar (scene : IntersectableScene) (light : Light)
    (intersection : Intersection) (num_samples : Nat)
    (rnd : Nat → ℝ × ℝ × ℝ) : Nat → Color ℝ
  | 0 => Color.new
  | depth + 1 =>
    let dest := light.pos
    let od := shadow_ori_dirs light intersection num_samples rnd
    let ori := od.1
    let dirs := od.2
    let shade := (dirs.map (shadow_sample scene light
      (fun inter => shadow_scalar scene light inter num_samples rnd depth)
      ori dest)).sum
    let shade := shade / (dirs.length : ℝ)
    Color.init shade shade shade

/-- `RayTracer::ambient_lightning`. -/
def ambient_lightning (kt : α) (ka cd : Color α) : Color α :=
  (cd * ka).mult (1 - kt)

/-- `RayTracer::calculate_fattj`: 1 for directional lights, else the
clamped quadratic attenuation of the distance to the light. -/
noncomputable def calculate_fattj (light : Light) (point : Vec3 ℝ) : ℝ :=
  match light.kind with
  | .DirectionalLight => 1
  | _ =>
    let distance := point.distance light.pos
    Min.min 1 (1 / (0.25 + 0.1 * distance + 0.01 * distance * distance))

/-- `RayTracer::diffuse_lightning`. -/
def diffuse_lightning (kt : α) (cd : Color α) (normal dj : Vec3 α) :
    Color α :=
  let a := 1 - kt
  let b := Max.max 0 (normal.dot dj)
  cd.mult (a * b)

/-- `RayTracer::specular_lightning` — `powf` is real exponentiation. -/
noncomputable def specular_lightning (q : ℝ) (ks : Color ℝ)
    (normal dj v : Vec3 ℝ) : Color ℝ :=
  let t := normal.dot dj
  let rj := (normal.mult t).mult 2 - dj
  let t2 := Max.max (rj.dot v) 0
  ks.mult (t2 ^ q)

/-- `RayTracer::direct_lightning` (`src/lib.rs` lines 198-251): one
direction sample for point/directional lights, `AREA_SAMPLES` samples for
area lights; every sample's contribution is divided per channel by the
caller-supplied `num_samples` and accumulated. -/
noncomputable def direct_lightning (light : Light)
    (intersection : Intersection) (sj : Color ℝ) (fattj : ℝ)
    (num_samples : Nat) (rnd : Nat → ℝ × ℝ × ℝ) : Color ℝ :=
  let point := intersection.pointVec
  let material := intersection.material
  let kt := material.transparency
  let cd := intersection.color
  let ks := material.specular
  let q := material.shininess * 128
  let dirs : List (Vec3 ℝ) :=
    match light.kind with
    | .DirectionalLight => [light.dir.invert]
    | .PointLight => [(light.pos - point).normalize]
    | .AreaLight =>
      let ori := intersection.pointVec
      (List.range AREA_SAMPLES).map fun k => areaSampleDir light ori (rnd k)
  let direct_light := (light.intensity * sj).mult fattj
  dirs.foldl (fun dir_lt dj =>
    let normal := intersection.surface_normal
    let diffuse_light := diffuse_lightning kt cd normal dj
    let v := intersection.direction.invert
    let specular_light := specular_lightning q ks normal dj v
    let lightc := direct_light * (diffuse_light + specular_light)
    let lightc := Color.init (lightc.r / (num_samples : ℝ))
      (lightc.g / (num_samples : ℝ)) (lightc.b / (num_samples : ℝ))
    dir_lt + lightc) Color.new

/-- The per-light body of the direct-lighting loop in
`RayTracer::shade_intersection` (`src/lib.rs` lines 267-273), with the
shadow computation abstracted as `shadowRec`: skip lights with
non-positive attenuation, otherwise accumulate `direct_lightning`. -/
noncomputable def direct_light_step (intersection : Intersection)
    (num_samples : Nat) (rnd : Nat → ℝ × ℝ × ℝ)
    (shadowRec : Light → Color ℝ) (direct_light : Color ℝ) (light : Light) :
    Color ℝ :=
  let fattj := calculate_fattj light intersection.pointVec
  if fattj > 0 then
    direct_light + direct_lightning light intersection (shadowRec light)
      fattj num_samples rnd
  else direct_light

/-- `RayTracer::shade_intersection` (`src/lib.rs` lines 253-300):
recursion on `depth` (`depth <= 0` returns black); ambient term, direct
term accumulated over the lights (each with its shadow scalar computed at
the same, undecremented depth), reflective and refractive terms via
recursive calls at `depth - 1`; returns
`direct + ambient + reflective + refractive`. -/
noncomputable def shade_intersection (scene : IntersectableScene)
    (intersection : Intersection) (num_samples : Nat)
    (rnd : Nat → ℝ × ℝ × ℝ) : Nat → Color ℝ
  | 0 => Color.new
  | depth + 1 =>
    let material := intersection.material
    let kt := material.transparency
    let ks := material.specular
    let ka := material.ambient
    let cd := intersection.color
    let ambient_light := ambient_lightning kt ka cd
    let direct_light := scene.get_lights.foldl
      (direct_light_step intersection num_samples rnd
        (fun light =>
          shadow_scalar scene light intersection num_samples rnd (depth + 1)))
      Color.new
    let reflective_light :=
      if ks.scalar > 0 then
        match scene.intersects intersection.reflective_ray with
        | some inter =>
          ks * shade_intersection scene inter num_samples rnd depth
        | none => Color.new
      else Color.new
    let refractive_light :=
      if kt > 0 then
        match intersection.refractive_ray with
        | some ray =>
          match scene.intersects ray with
          | some inter =>
            (shade_intersection scene inter num_samples rnd depth).mult kt
          | none => Color.new
        | none => Color.new
      else Color.new
    direct_light + ambient_light + reflective_light + refractive_light

/-- C10: every ray constructed by `Ray::init` starts with its medium flag
set to vacuum, and in particular the reflective ray of any intersection
(built by `Ray::init` with no `switch_medium`) reports `in_vacuum`
regardless of the incoming ray's flag — so reflection and shadow rays
spawned inside a dielectric are nevertheless marked as travelling in
vacuum. -/
theorem c10_rays_start_in_vacuum :
    (∀ ori dir : Vec3 ℝ, (Ray.init ori dir).in_vacuum = true) ∧
    ∀ i : Intersection, i.reflective_ray.in_vacuum = true := by
  refine ⟨fun _ _ => rfl, fun i => rfl⟩

/-- Shape whose surface normal is constantly `(0,0,1)`; the other
capabilities are irrelevant to `refractive_ray`. -/
noncomputable def c2shape : Shape ℝ :=
  { get_bbox := BoundingBox.new
    intersects := fun _ => none
    surface_normal := fun _ _ => Vec3.init 0 0 1
    get_material := Material.new
    diffuse_color := fun _ => Color.new }

/-- An intersection whose incoming ray travels inside the dielectric
(medium flag `false`), hitting head-on (no total internal reflection). -/
noncomputable def c2inter : Intersection :=
  ⟨1, ⟨Vec3.init 0 0 0, Vec3.init 0 0 1, false⟩, c2shape⟩

/-- C2: at a refraction with no total internal reflection whose incoming
ray is inside the dielectric (`in_vacuum = false`), the returned ray's
medium flag is again `false` — not inverted.  `Ray::init` always creates
the flag as `true` and `switch_medium` is called once on that fresh ray,
so the refracted ray's flag is `false` unconditionally and the incoming
medium never propagates. -/
theorem c2_refractive_flag_not_inverted :
    c2inter.ray.in_vacuum = false ∧
      (c2inter.refractive_ray).map Ray.in_vacuum = some false := by
  refine ⟨rfl, ?_⟩
  rw [Intersection.refractive_ray]
  simp only [c2inter, c2shape, Intersection.surface_normal,
    Intersection.pointVec, Ray.in_vacuum, Vec3.dot, Vec3.invert, Vec3.mult_x,
    Vec3.mult_y, Vec3.mult_z, Vec3.init_x, Vec3.init_y, Vec3.init_z,
    Bool.false_eq_true, if_false]
  norm_num
  rfl

/-- Directional light pointing along `+z`. -/
noncomputable def c5light : Light :=
  ⟨.DirectionalLight, Vec3.new, Vec3.init 0 0 1, Color.new⟩

/-- Shape with constant surface normal `(1,0,0)`. -/
noncomputable def c5shape : Shape ℝ :=
  { get_bbox := BoundingBox.new
    intersects := fun _ => none
    surface_normal := fun _ _ => Vec3.init 1 0 0
    get_material := Material.new
    diffuse_color := fun _ => Color.new }

/-- Intersection at the origin whose surface normal is `(1,0,0)`. -/
noncomputable def c5inter : Intersection :=
  ⟨0, Ray.init (Vec3.init 0 0 0) (Vec3.init 0 0 1), c5shape⟩

/-- C5 (amended): the shadow-ray origin is the hit point offset by epsilon
`1e-4`, but the offset direction is the shadow-ray direction for Point and
Directional lights (the inverted light direction, resp. the normalised
direction towards the light), and the surface normal only for Area
lights. -/
theorem c5_shadow_origin_offset (light : Light) (i : Intersection) (n : Nat)
    (rnd : Nat → ℝ × ℝ × ℝ) :
    (light.kind = .DirectionalLight →
      (shadow_ori_dirs light i n rnd).1 =
        i.pointVec + light.dir.invert.mult 0.0001) ∧
    (light.kind = .PointLight →
      (shadow_ori_dirs light i n rnd).1 =
        i.pointVec + ((light.pos - i.pointVec).normalize).mult 0.0001) ∧
    (light.kind = .AreaLight →
      (shadow_ori_dirs light i n rnd).1 =
        i.pointVec + i.surface_normal.mult 0.0001) := by
  refine ⟨?_, ?_, ?_⟩ <;>
    · intro hk
      simp only [shadow_ori_dirs, hk]

/-- C5 witness: the amended statement instantiated at a concrete
directional light. -/
theorem c5_shadow_origin_offset_witness :
    (shadow_ori_dirs c5light c5inter 1 (fun _ => (0, 0, 0))).1 =
      c5inter.pointVec + c5light.dir.invert.mult 0.0001 :=
  (c5_shadow_origin_offset c5light c5inter 1 (fun _ => (0, 0, 0))).1 rfl

/-- C5 counterexample: for a directional light with direction `(0,0,1)`
hitting a surface with normal `(1,0,0)`, the shadow-ray origin computed by
`shadow_scalar` is the hit point offset along `(0,0,-1)` (the inverted
light direction), not along the surface normal: the claim that every
light type offsets along the surface normal is false. -/
theorem c5_shadow_origin_counterexample :
    (shadow_ori_dirs c5light c5inter 1 (fun _ => (0, 0, 0))).1 ≠
      c5inter.pointVec + c5inter.surface_normal.mult 0.0001 := by
  intro h
  have hz := congrArg Vec3.z h
  simp only [shadow_ori_dirs, c5light, c5inter, c5shape,
    Intersection.surface_normal, Intersection.pointVec, Vec3.invert,
    Vec3.mult_x, Vec3.mult_y, Vec3.mult_z, Vec3.add_z, Vec3.init_x,
    Vec3.init_y, Vec3.init_z] at hz
  norm_num at hz

/-- C6: in `shadow_scalar` for a Point light whose single shadow ray hits
an opaque occluder (`transparency == 0`), the sample is fully lit (the
result is white) when the occluder is farther from the shadow-ray origin
than the light, and fully shadowed (black) when it is not. -/
theorem c6_point_light_occluder_behind (scene : IntersectableScene)
    (light : Light) (i occ : Intersection) (n : Nat)
    (rnd : Nat → ℝ × ℝ × ℝ) (d : Nat)
    (hk : light.kind = .PointLight)
    (hocc : scene.intersects
      (Ray.init (i.pointVec + ((light.pos - i.pointVec).normalize).mult 0.0001)
        ((light.pos - i.pointVec).normalize)) = some occ)
    (htr : occ.material.transparency = 0) :
    ((i.pointVec + ((light.pos - i.pointVec).normalize).mult 0.0001).distance
        occ.pointVec >
      (i.pointVec +
        ((light.pos - i.pointVec).normalize).mult 0.0001).distance light.pos →
      shadow_scalar scene light i n rnd (d + 1) = Color.init 1 1 1) ∧
    (¬ ((i.pointVec +
          ((light.pos - i.pointVec).normalize).mult 0.0001).distance
        occ.pointVec >
      (i.pointVec +
        ((light.pos - i.pointVec).normalize).mult 0.0001).distance light.pos) →
      shadow_scalar scene light i n rnd (d + 1) = Color.init 0 0 0) := by
  constructor
  · intro hcond
    simp only [shadow_scalar, shadow_sample, shadow_ori_dirs, hk,
      List.map_cons, List.map_nil, List.sum_cons, List.sum_nil,
      List.length_cons, List.length_nil, hocc, htr, if_pos, if_true]
    rw [if_pos hcond]
    norm_num
  · intro hcond
    simp only [shadow_scalar, shadow_sample, shadow_ori_dirs, hk,
      List.map_cons, List.map_nil, List.sum_cons, List.sum_nil,
      List.length_cons, List.length_nil, hocc, htr, if_pos, if_true]
    rw [if_neg hcond]
    norm_num

@[simp] theorem Vec3.add_def (a b : Vec3 α) :
    a + b = Vec3.init (a.x + b.x) (a.y + b.y) (a.z + b.z) := rfl

@[simp] theorem Vec3.sub_def (a b : Vec3 α) :
    a - b = Vec3.init (a.x - b.x) (a.y - b.y) (a.z - b.z) := rfl

/-- Point light at `(0,0,2)`. -/
noncomputable def c6light : Light :=
  ⟨.PointLight, Vec3.init 0 0 2, Vec3.new, Color.new⟩

/-- Intersection at the origin (dummy shape with opaque default material). -/
noncomputable def c6i : Intersection :=
  ⟨0, Ray.init (Vec3.init 0 0 0) (Vec3.init 0 0 1), c5shape⟩

/-- Opaque occluder intersection whose hit point `(0,0,5)` lies beyond the
light at `(0,0,2)`. -/
noncomputable def c6occ : Intersection :=
  ⟨0, Ray.init (Vec3.init 0 0 5) (Vec3.init 0 0 1), c5shape⟩

/-- Scene whose intersection oracle always reports the occluder. -/
noncomputable def c6scene : IntersectableScene :=
  ⟨[], fun _ => some c6occ⟩

theorem c6_pointVec_i : c6i.pointVec = Vec3.init 0 0 0 := by
  simp only [c6i, Intersection.pointVec, Ray.init_ori, Ray.init_dir,
    Vec3.add_def, Vec3.mult_x, Vec3.mult_y, Vec3.mult_z, Vec3.init_x,
    Vec3.init_y, Vec3.init_z]
  norm_num

theorem c6_pointVec_occ : c6occ.pointVec = Vec3.init 0 0 5 := by
  simp only [c6occ, Intersection.pointVec, Ray.init_ori, Ray.init_dir,
    Vec3.add_def, Vec3.mult_x, Vec3.mult_y, Vec3.mult_z, Vec3.init_x,
    Vec3.init_y, Vec3.init_z]
  norm_num

theorem c6_dir_normalized :
    (c6light.pos - c6i.pointVec).normalize = Vec3.init 0 0 1 := by
  rw [c6_pointVec_i]
  simp only [c6light, Vec3.sub_def, Vec3.init_x, Vec3.init_y, Vec3.init_z]
  norm_num
  rw [Vec3.normalize]
  simp only [Vec3.length, Vec3.init_x, Vec3.init_y, Vec3.init_z]
  norm_num [sqrt_four]

/-- C6 witness: the occluder at distance `≈ 5` lies beyond the point light
at distance `≈ 2`, so the shadow sample is fully lit. -/
theorem c6_point_light_occluder_behind_witness :
    shadow_scalar c6scene c6light c6i 1 (fun _ => (0, 0, 0)) 1 =
      Color.init 1 1 1 := by
  refine (c6_point_light_occluder_behind c6scene c6light c6i c6occ 1
    (fun _ => (0, 0, 0)) 0 rfl rfl rfl).1 ?_
  rw [c6_dir_normalized, c6_pointVec_i, c6_pointVec_occ]
  simp only [Vec3.distance, Vec3.add_def, Vec3.mult_x, Vec3.mult_y,
    Vec3.mult_z, Vec3.init_x, Vec3.init_y, Vec3.init_z, c6light]
  norm_num
  gcongr
  norm_num

@[simp] theorem Color.add_init (a b : Color α) :
    a + b = Color.init (a.r + b.r) (a.g + b.g) (a.b + b.b) := rfl

@[simp] theorem Color.mul_init (a b : Color α) :
    a * b = Color.init (a.r * b.r) (a.g * b.g) (a.b * b.b) := rfl

/-- One sample's contribution as accumulated by `direct_lightning`:
`(intensity * sj).mult(fattj) * (diffuse + specular)`, divided per channel
by the caller-supplied `num_samples`. -/
noncomputable def direct_sample (light : Light) (i : Intersection)
    (sj : Color ℝ) (fattj : ℝ) (num_samples : Nat) (dj : Vec3 ℝ) : Color ℝ :=
  let lightc := (light.intensity * sj).mult fattj *
    (diffuse_lightning i.material.transparency i.color i.surface_normal dj +
      specular_lightning (i.material.shininess * 128) i.material.specular
        i.surface_normal dj i.direction.invert)
  Color.init (lightc.r / (num_samples : ℝ)) (lightc.g / (num_samples : ℝ))
    (lightc.b / (num_samples : ℝ))

/-- C3 (amended): `direct_lightning` takes exactly one direction sample
for Point and Directional lights and the static `AREA_SAMPLES` (= 10)
samples — not the caller-supplied count — for Area lights, and every
sample's contribution is divided per channel by the caller-supplied
`num_samples` regardless of the light type (so a Point/Directional
contribution is divided by `num_samples`, not by 1). -/
theorem c3_direct_lighting_samples (light : Light) (i : Intersection)
    (sj : Color ℝ) (fattj : ℝ) (n : Nat) (rnd : Nat → ℝ × ℝ × ℝ) :
    (light.kind = .PointLight →
      direct_lightning light i sj fattj n rnd =
        Color.new + direct_sample light i sj fattj n
          ((light.pos - i.pointVec).normalize)) ∧
    (light.kind = .DirectionalLight →
      direct_lightning light i sj fattj n rnd =
        Color.new + direct_sample light i sj fattj n light.dir.invert) ∧
    (light.kind = .AreaLight →
      direct_lightning light i sj fattj n rnd =
        ((List.range AREA_SAMPLES).map fun k =>
            areaSampleDir light i.pointVec (rnd k)).foldl
          (fun acc dj => acc + direct_sample light i sj fattj n dj)
          Color.new) := by
  refine ⟨?_, ?_, ?_⟩ <;>
    · intro hk
      simp only [direct_lightning, direct_sample, hk, List.foldl]

/-- Point light at `(0,0,1)` with white intensity. -/
noncomputable def c3light : Light :=
  ⟨.PointLight, Vec3.init 0 0 1, Vec3.new, Color.init 1 1 1⟩

/-- White-diffuse, non-specular, opaque material. -/
noncomputable def c3mat : Material ℝ :=
  ⟨Color.init 1 1 1, Color.new, Color.new, Color.new, 0, 0⟩

/-- Shape with constant surface normal `(0,0,1)` and the white material. -/
noncomputable def c3shape : Shape ℝ :=
  { get_bbox := BoundingBox.new
    intersects := fun _ => none
    surface_normal := fun _ _ => Vec3.init 0 0 1
    get_material := c3mat
    diffuse_color := fun _ => c3mat.diffuse }

/-- Intersection at the origin facing the light. -/
noncomputable def c3i : Intersection :=
  ⟨0, Ray.init (Vec3.init 0 0 0) (Vec3.init 0 0 (-1)), c3shape⟩

/-- C3 witness: the amended statement instantiated at the point light. -/
theorem c3_direct_lighting_samples_witness :
    direct_lightning c3light c3i (Color.init 1 1 1) 1 2 (fun _ => (0, 0, 0)) =
      Color.new + direct_sample c3light c3i (Color.init 1 1 1) 1 2
        ((c3light.pos - c3i.pointVec).normalize) :=
  (c3_direct_lighting_samples c3light c3i (Color.init 1 1 1) 1 2
    (fun _ => (0, 0, 0))).1 rfl

/-- C3 counterexample: with caller sample count `num_samples = 2`, full
visibility and attenuation 1, a point light of white intensity over a
white diffuse surface yields direct lighting `(1/2, 1/2, 1/2)` — the
single sample is divided by the caller-supplied `2`, not by 1, so the
direct term is not the average over the point light's one sample. -/
theorem c3_point_sample_divided_counterexample :
    direct_lightning c3light c3i (Color.init 1 1 1) 1 2 (fun _ => (0, 0, 0)) =
      Color.init (1 / 2) (1 / 2) (1 / 2) ∧
    Color.init (1 / 2) (1 / 2) (1 / 2) ≠ (Color.init 1 1 1 : Color ℝ) := by
  constructor
  · norm_num [direct_lightning, c3light, c3i, c3shape, c3mat,
      Intersection.pointVec, Intersection.material, Intersection.color,
      Intersection.surface_normal, Intersection.direction, Vec3.normalize,
      Vec3.length, Vec3.dot, Vec3.invert, Vec3.mult, diffuse_lightning,
      specular_lightning, Color.init, Color.channelSet, Color.mult, Color.new,
      Real.sqrt_one, List.foldl, max_def, Vec3.init]
  · intro h
    have := congrArg Color.r h
    norm_num [Color.init, Color.channelSet] at this

theorem channelSet_bounds (v : α) :
    0 ≤ Color.channelSet v ∧ Color.channelSet v ≤ 1 := by
  simp only [Color.channelSet]
  split_ifs <;> constructor <;> linarith

/-- C4 (amended): every `Color` addition goes through the clamping
setters of `Color::init`, so the value `shade_intersection` returns — the
clamped combination `direct + ambient + reflective + refractive` — always
has every channel in `[0,1]`; it equals the mathematical sum of the four
contribution terms only when that sum is already in range. -/
theorem c4_shade_result_clamped (scene : IntersectableScene)
    (i : Intersection) (n : Nat) (rnd : Nat → ℝ × ℝ × ℝ) (d : Nat) :
    (0 ≤ (shade_intersection scene i n rnd d).r ∧
      (shade_intersection scene i n rnd d).r ≤ 1) ∧
    (0 ≤ (shade_intersection scene i n rnd d).g ∧
      (shade_intersection scene i n rnd d).g ≤ 1) ∧
    (0 ≤ (shade_intersection scene i n rnd d).b ∧
      (shade_intersection scene i n rnd d).b ≤ 1) := by
  cases d with
  | zero =>
    simp only [shade_intersection, Color.new]
    norm_num
  | succ d =>
    refine ⟨⟨?_, ?_⟩, ⟨?_, ?_⟩, ⟨?_, ?_⟩⟩ <;>
      · simp only [shade_intersection, Color.add_init, Color.init]
        first
          | exact (channelSet_bounds _).1
          | exact (channelSet_bounds _).2

/-- Reflection-target material: white diffuse, ambient `(4/5,0,0)`, no
specular. -/
noncomputable def c4childMat : Material ℝ :=
  ⟨Color.init 1 1 1, Color.init (4 / 5) 0 0, Color.new, Color.new, 0, 0⟩

noncomputable def c4childShape : Shape ℝ :=
  { get_bbox := BoundingBox.new
    intersects := fun _ => none
    surface_normal := fun _ _ => Vec3.init 0 0 1
    get_material := c4childMat
    diffuse_color := fun _ => c4childMat.diffuse }

noncomputable def c4child : Intersection :=
  ⟨0, Ray.init (Vec3.init 0 0 0) (Vec3.init 0 0 (-1)), c4childShape⟩

/-- Top material: white diffuse, ambient `(4/5,0,0)`, specular `(1,0,0)`. -/
noncomputable def c4mat : Material ℝ :=
  ⟨Color.init 1 1 1, Color.init (4 / 5) 0 0, Color.init 1 0 0, Color.new,
    0, 0⟩

noncomputable def c4shape : Shape ℝ :=
  { get_bbox := BoundingBox.new
    intersects := fun _ => none
    surface_normal := fun _ _ => Vec3.init 0 0 1
    get_material := c4mat
    diffuse_color := fun _ => c4mat.diffuse }

noncomputable def c4i : Intersection :=
  ⟨0, Ray.init (Vec3.init 0 0 0) (Vec3.init 0 0 (-1)), c4shape⟩

/-- Lightless scene whose oracle always reports the reflection target. -/
noncomputable def c4scene : IntersectableScene :=
  ⟨[], fun _ => some c4child⟩

theorem c4_child_shade :
    shade_intersection c4scene c4child 1 (fun _ => (0, 0, 0)) 1 =
      Color.init (4 / 5) 0 0 := by
  simp only [shade_intersection, c4scene, c4child, c4childShape, c4childMat,
    Intersection.material, Intersection.color, ambient_lightning,
    Color.scalar, Color.new, Color.mult, Color.init, Color.channelSet,
    Color.add_init, Color.mul_init, List.foldl]
  norm_num [Real.sqrt_zero]

/-- C4 counterexample: with ambient `(4/5,0,0)` and a reflective term of
`(4/5,0,0)`, `shade_intersection` returns red channel `1` (the addition
clamps at `1`), while the mathematical sum of its four contribution terms
has red channel `8/5` — so shade does not return the unclamped sum. -/
theorem c4_clamped_sum_counterexample :
    (shade_intersection c4scene c4i 1 (fun _ => (0, 0, 0)) 2).r = 1 ∧
    (Color.new : Color ℝ).r +
        (ambient_lightning c4i.material.transparency c4i.material.ambient
          c4i.color).r +
        (c4i.material.specular *
          shade_intersection c4scene c4child 1 (fun _ => (0, 0, 0)) 1).r +
        (Color.new : Color ℝ).r = 8 / 5 ∧
    (1 : ℝ) ≠ 8 / 5 := by
  have hscal : (Color.init (1 : ℝ) 0 0).scalar = 1 := by
    norm_num [Color.scalar, Color.init, Color.channelSet, Real.sqrt_one]
  refine ⟨?_, ?_, by norm_num⟩
  · rw [show (2 : Nat) = 1 + 1 from rfl, shade_intersection.eq_2]
    rw [show c4scene.get_lights = [] from rfl, List.foldl_nil]
    simp only [show ∀ r, c4scene.intersects r = some c4child from fun _ => rfl]
    rw [c4_child_shade]
    simp only [show c4i.material = c4mat from rfl, c4mat,
      show c4i.color = Color.init 1 1 1 from rfl]
    rw [hscal]
    rw [if_pos (by norm_num : (1 : ℝ) > 0)]
    rw [if_neg (by norm_num : ¬((0 : ℝ) > 0))]
    norm_num [ambient_lightning, Color.new, Color.mult, Color.init,
      Color.channelSet, Color.add_init, Color.mul_init]
  · rw [c4_child_shade]
    simp only [show c4i.material = c4mat from rfl, c4mat,
      show c4i.color = Color.init 1 1 1 from rfl]
    norm_num [ambient_lightning, Color.new, Color.mult, Color.init,
      Color.channelSet, Color.add_init, Color.mul_init]

/-! ### Fuel-indexed interpreter for the recursive shading computation

The claim about termination is made precise with a step-indexed variant of
`shadow_scalar`/`shade_intersection`: every call consumes one unit of
fuel and returns `none` when the fuel runs out.  Termination of the
recursion (each self-call strictly decreases `depth`, `depth = 0` is
terminal, and `shade_intersection` invokes `shadow_scalar` with the
undecremented depth but `shadow_scalar` never calls back) is expressed by
the convergence theorem: enough fuel, computed from `depth` alone, always
yields `some` of the total function's value. -/

/-- Sum of a list of optional values; `none` propagates. -/
def optSum (l : List (Option ℝ)) : Option ℝ :=
  l.foldr (fun a acc => acc.bind fun rest => a.map fun v => v + rest) (some 0)

theorem optSum_map_some {β : Type} (G : β → Option ℝ) (f : β → ℝ)
    (l : List β) (h : ∀ a ∈ l, G a = some (f a)) :
    optSum (l.map G) = some ((l.map f).sum) := by
  induction l with
  | nil => rfl
  | cons a l ih =>
    have hl : optSum (l.map G) = some ((l.map f).sum) :=
      ih fun b hb => h b (List.mem_cons_of_mem _ hb)
    have ha := h a (List.mem_cons_self _ _)
    show (optSum (l.map G)).bind _ = _
    rw [hl, ha]
    simp [List.sum_cons]

/-- Fuel-indexed analogue of `shadow_sample`. -/
noncomputable def shadow_sampleF (scene : IntersectableScene) (light : Light)
    (rec : Intersection → Option (Color ℝ)) (ori dest dir : Vec3 ℝ) :
    Option ℝ :=
  let shadow := Ray.init ori dir
  match scene.intersects shadow with
  | some inter =>
    let material := inter.material
    if material.transparency = 0 then
      some (match light.kind with
        | .PointLight =>
          if ori.distance inter.pointVec > ori.distance dest then (1 : ℝ)
          else 0
        | _ => 0)
    else (rec inter).map fun col => material.transparency * col.r
  | none => some (1 : ℝ)

theorem shadow_sampleF_eq (scene : IntersectableScene) (light : Light)
    (recF : Intersection → Option (Color ℝ)) (rec : Intersection → Color ℝ)
    (ori dest dir : Vec3 ℝ) (h : ∀ inter, recF inter = some (rec inter)) :
    shadow_sampleF scene light recF ori dest dir =
      some (shadow_sample scene light rec ori dest dir) := by
  simp only [shadow_sampleF, shadow_sample]
  cases hsc : scene.intersects (Ray.init ori dir) with
  | none => rfl
  | some inter =>
    by_cases ht : inter.material.transparency = 0
    · simp [ht]
    · simp [ht, h inter]

/-- Fuel-indexed analogue of `shadow_scalar`. -/
noncomputable def shadow_scalarF (scene : IntersectableScene) (light : Light)
    (intersection : Intersection) (num_samples : Nat)
    (rnd : Nat → ℝ × ℝ × ℝ) : Nat → Nat → Option (Color ℝ)
  | 0, _ => none
  | _ + 1, 0 => some Color.new
  | fuel + 1, depth + 1 =>
    let dest := light.pos
    let od := shadow_ori_dirs light intersection num_samples rnd
    let ori := od.1
    let dirs := od.2
    (optSum (dirs.map (shadow_sampleF scene light
      (fun inter => shadow_scalarF scene light inter num_samples rnd fuel
        depth) ori dest))).map fun s =>
      let shade := s / (dirs.length : ℝ)
      Color.init shade shade shade

theorem shadow_scalarF_converges :
    ∀ fuel depth : Nat, depth < fuel →
      ∀ (scene : IntersectableScene) (light : Light) (i : Intersection)
        (n : Nat) (rnd : Nat → ℝ × ℝ × ℝ),
      shadow_scalarF scene light i n rnd fuel depth =
        some (shadow_scalar scene light i n rnd depth) := by
  intro fuel
  induction fuel with
  | zero =>
    intro depth h
    exact absurd h (Nat.not_lt_zero _)
  | succ fuel ih =>
    intro depth h scene light i n rnd
    cases depth with
    | zero => rfl
    | succ depth =>
      have hd : depth < fuel := Nat.lt_of_succ_lt_succ h
      simp only [shadow_scalarF, shadow_scalar]
      rw [optSum_map_some _
        (shadow_sample scene light
          (fun inter => shadow_scalar scene light inter n rnd depth)
          (shadow_ori_dirs light i n rnd).1 light.pos)
        _
        (fun dir _ => shadow_sampleF_eq scene light _ _ _ _ dir
          (fun inter => ih depth hd scene light inter n rnd))]
      rfl

/-- Fuel-indexed analogue of `direct_light_step`. -/
noncomputable def direct_light_stepF (intersection : Intersection)
    (num_samples : Nat) (rnd : Nat → ℝ × ℝ × ℝ)
    (shadowRecF : Light → Option (Color ℝ)) (direct_light : Color ℝ)
    (light : Light) : Option (Color ℝ) :=
  let fattj := calculate_fattj light intersection.pointVec
  if fattj > 0 then
    (shadowRecF light).map fun ss =>
      direct_light + direct_lightning light intersection ss fattj
        num_samples rnd
  else some direct_light

theorem direct_light_stepF_eq (i : Intersection) (n : Nat)
    (rnd : Nat → ℝ × ℝ × ℝ) (recF : Light → Option (Color ℝ))
    (rec : Light → Color ℝ) (c : Color ℝ) (light : Light)
    (h : ∀ l, recF l = some (rec l)) :
    direct_light_stepF i n rnd recF c light =
      some (direct_light_step i n rnd rec c light) := by
  unfold direct_light_stepF direct_light_step
  by_cases hf : calculate_fattj light i.pointVec > 0
  · simp [hf, h light]
  · simp [hf]

theorem foldl_bind_option {β γ : Type} (gF : γ → β → Option γ)
    (g : γ → β → γ) (l : List β)
    (h : ∀ b ∈ l, ∀ c, gF c b = some (g c b)) :
    ∀ init : γ,
      l.foldl (fun acc b => acc.bind fun c => gF c b) (some init) =
        some (l.foldl g init) := by
  induction l with
  | nil => intro init; rfl
  | cons b l ih =>
    intro init
    simp only [List.foldl_cons]
    rw [show (Option.bind (some init) fun c => gF c b) = gF init b from rfl]
    rw [h b (List.mem_cons_self _ _) init]
    exact ih (fun b' hb' c => h b' (List.mem_cons_of_mem _ hb') c) (g init b)

/-- Fuel-indexed analogue of `shade_intersection`. -/
noncomputable def shade_intersectionF (scene : IntersectableScene)
    (intersection : Intersection) (num_samples : Nat)
    (rnd : Nat → ℝ × ℝ × ℝ) : Nat → Nat → Option (Color ℝ)
  | 0, _ => none
  | _ + 1, 0 => some Color.new
  | fuel + 1, depth + 1 =>
    let material := intersection.material
    let kt := material.transparency
    let ks := material.specular
    let ka := material.ambient
    let cd := intersection.color
    let ambient_light := ambient_lightning kt ka cd
    let directOpt := scene.get_lights.foldl
      (fun acc light => acc.bind fun c =>
        direct_light_stepF intersection num_samples rnd
          (fun light => shadow_scalarF scene light intersection num_samples
            rnd fuel (depth + 1)) c light)
      (some Color.new)
    let reflOpt :=
      if ks.scalar > 0 then
        match scene.intersects intersection.reflective_ray with
        | some inter =>
          (shade_intersectionF scene inter num_samples rnd fuel depth).map
            fun c => ks * c
        | none => some Color.new
      else some Color.new
    let refrOpt :=
      if kt > 0 then
        match intersection.refractive_ray with
        | some ray =>
          match scene.intersects ray with
          | some inter =>
            (shade_intersectionF scene inter num_samples rnd fuel depth).map
              fun c => c.mult kt
          | none => some Color.new
        | none => some Color.new
      else some Color.new
    directOpt.bind fun direct_light =>
      reflOpt.bind fun reflective_light =>
        refrOpt.map fun refractive_light =>
          direct_light + ambient_light + reflective_light + refractive_light

theorem option_match_some {β γ : Type} (x : Option β) (f : β → γ) (c : γ) :
    (match x with | some a => some (f a) | none => some c) =
      some (match x with | some a => f a | none => c) := by
  cases x <;> rfl

theorem shade_intersectionF_converges :
    ∀ fuel depth : Nat, depth + 1 < fuel →
      ∀ (scene : IntersectableScene) (i : Intersection) (n : Nat)
        (rnd : Nat → ℝ × ℝ × ℝ),
      shade_intersectionF scene i n rnd fuel depth =
        some (shade_intersection scene i n rnd depth) := by
  intro fuel
  induction fuel with
  | zero =>
    intro depth h
    exact absurd h (Nat.not_lt_zero _)
  | succ fuel ih =>
    intro depth h scene i n rnd
    cases depth with
    | zero => rfl
    | succ depth =>
      have hsh : ∀ light, shadow_scalarF scene light i n rnd fuel (depth + 1) =
          some (shadow_scalar scene light i n rnd (depth + 1)) :=
        fun light => shadow_scalarF_converges fuel (depth + 1)
          (by omega) scene light i n rnd
      have hrec : ∀ i', shade_intersectionF scene i' n rnd fuel depth =
          some (shade_intersection scene i' n rnd depth) :=
        fun i' => ih depth (by omega) scene i' n rnd
      simp only [shade_intersectionF, shade_intersection]
      rw [foldl_bind_option
        (direct_light_stepF i n rnd
          (fun light => shadow_scalarF scene light i n rnd fuel (depth + 1)))
        (direct_light_step i n rnd
          (fun light => shadow_scalar scene light i n rnd (depth + 1)))
        scene.get_lights
        (fun b _ c => direct_light_stepF_eq i n rnd _ _ c b hsh)
        Color.new]
      simp only [hrec, Option.map_some']
      by_cases hks : (i.material.specular).scalar > 0
      · rw [if_pos hks, if_pos hks]
        by_cases hkt : i.material.transparency > 0
        · rw [if_pos hkt, if_pos hkt]
          cases scene.intersects i.reflective_ray with
          | none =>
            cases i.refractive_ray with
            | none => rfl
            | some ray => cases hsi : scene.intersects ray <;> simp only [hsi] <;> rfl
          | some j =>
            cases i.refractive_ray with
            | none => rfl
            | some ray => cases hsi : scene.intersects ray <;> simp only [hsi] <;> rfl
        · rw [if_neg hkt, if_neg hkt]
          cases scene.intersects i.reflective_ray <;> rfl
      · rw [if_neg hks, if_neg hks]
        by_cases hkt : i.material.transparency > 0
        · rw [if_pos hkt, if_pos hkt]
          cases i.refractive_ray with
          | none => rfl
          | some ray => cases hsi : scene.intersects ray <;> simp only [hsi] <;> rfl
        · rw [if_neg hkt, if_neg hkt]
          rfl

/-- C9: the recursive shading computation terminates.  Each recursive
self-call of `shadow_scalar` and of `shade_intersection` strictly
decreases its depth argument, `depth = 0` is a terminal state returning
black, and `shade_intersection` calls `shadow_scalar` with the
undecremented depth (while `shadow_scalar` never calls back): the
step-indexed interpreters therefore converge to the total functions'
values whenever the fuel exceeds the depth (by 1, resp. 2), i.e. a trace
always runs to completion or to its depth limit. -/
theorem c9_shading_terminates :
    (∀ (scene : IntersectableScene) (light : Light) (i : Intersection)
        (n : Nat) (rnd : Nat → ℝ × ℝ × ℝ) (depth fuel : Nat),
      depth < fuel →
      shadow_scalarF scene light i n rnd fuel depth =
        some (shadow_scalar scene light i n rnd depth)) ∧
    (∀ (scene : IntersectableScene) (i : Intersection) (n : Nat)
        (rnd : Nat → ℝ × ℝ × ℝ) (depth fuel : Nat),
      depth + 1 < fuel →
      shade_intersectionF scene i n rnd fuel depth =
        some (shade_intersection scene i n rnd depth)) :=
  ⟨fun scene light i n rnd depth fuel h =>
      shadow_scalarF_converges fuel depth h scene light i n rnd,
    fun scene i n rnd depth fuel h =>
      shade_intersectionF_converges fuel depth h scene i n rnd⟩

/-- C9 witness: convergence instantiated on the concrete point-light
scene. -/
theorem c9_shading_terminates_witness :
    shadow_scalarF c6scene c6light c6i 1 (fun _ => (0, 0, 0)) 1 0 =
      some (shadow_scalar c6scene c6light c6i 1 (fun _ => (0, 0, 0)) 0) ∧
    shade_intersectionF c6scene c6i 1 (fun _ => (0, 0, 0)) 2 0 =
      some (shade_intersection c6scene c6i 1 (fun _ => (0, 0, 0)) 0) :=
  ⟨c9_shading_terminates.1 c6scene c6light c6i 1 (fun _ => (0, 0, 0)) 0 1
      (by norm_num),
    c9_shading_terminates.2 c6scene c6i 1 (fun _ => (0, 0, 0)) 0 2
      (by norm_num)⟩

end RayTracer
